import Mathlib

/-!
# Verification of the view-frustum and camera algebra of `ViewState.ts`

This file is a shallow embedding, in exact real arithmetic, of the
view-frustum / camera subsystem of `src/core/frontend/src/ViewState.ts`.
The geometry primitives (`Vector3d`, `Matrix3d`, ... of `geometry-core`)
are an external collaborator per the specification and are modelled as
ideal real-number vector algebra.  Repository entities that are not part
of the provided sources (`Frustum`, `Camera`, the standard-view snap, the
`nearScale24` constant) are modelled from the specification; their doc
comments say so explicitly.
-/

noncomputable section

open Classical

/-- A 3-component vector of real numbers, modelling `Vector3d` / `Point3d` of
the external `geometry-core` math library in exact arithmetic. -/
@[ext]
structure Vec3 where
  x : ℝ
  y : ℝ
  z : ℝ

namespace Vec3

/-- Component-wise addition (`plus`). -/
def add (a b : Vec3) : Vec3 := ⟨a.x + b.x, a.y + b.y, a.z + b.z⟩

/-- Component-wise subtraction (`minus` / `vectorTo` between points). -/
def sub (a b : Vec3) : Vec3 := ⟨a.x - b.x, a.y - b.y, a.z - b.z⟩

/-- Scalar multiple (`scale`). -/
def smul (c : ℝ) (a : Vec3) : Vec3 := ⟨c * a.x, c * a.y, c * a.z⟩

/-- The zero vector. -/
def zero : Vec3 := ⟨0, 0, 0⟩

/-- Dot product (`dotProduct`). -/
def dot (a b : Vec3) : ℝ := a.x * b.x + a.y * b.y + a.z * b.z

/-- Cross product (`crossProduct`). -/
def cross (a b : Vec3) : Vec3 :=
  ⟨a.y * b.z - a.z * b.y, a.z * b.x - a.x * b.z, a.x * b.y - a.y * b.x⟩

/-- Squared magnitude. -/
def normSq (a : Vec3) : ℝ := a.x * a.x + a.y * a.y + a.z * a.z

/-- Magnitude (`magnitude`), modelled with the real square root. -/
def magnitude (a : Vec3) : ℝ := Real.sqrt a.normSq

/-- Magnitude of the XY-projection (`magnitudeXY`). -/
def magnitudeXY (a : Vec3) : ℝ := Real.sqrt (a.x * a.x + a.y * a.y)

/-- Euclidean distance between two points (`distance`). -/
def dist (a b : Vec3) : ℝ := (sub b a).magnitude

/-- `a + c • b` (`plusScaled`). -/
def plusScaled (a : Vec3) (b : Vec3) (c : ℝ) : Vec3 := add a (smul c b)

theorem normSq_nonneg (a : Vec3) : 0 ≤ a.normSq := by
  have hx := mul_self_nonneg a.x
  have hy := mul_self_nonneg a.y
  have hz := mul_self_nonneg a.z
  unfold normSq; linarith

theorem magnitude_nonneg (a : Vec3) : 0 ≤ a.magnitude := Real.sqrt_nonneg _

theorem magnitude_sq (a : Vec3) : a.magnitude * a.magnitude = a.normSq := by
  unfold magnitude
  exact Real.mul_self_sqrt a.normSq_nonneg

theorem normSq_eq_zero_iff (a : Vec3) : a.normSq = 0 ↔ a = zero := by
  constructor
  · intro h
    have hx := mul_self_nonneg a.x
    have hy := mul_self_nonneg a.y
    have hz := mul_self_nonneg a.z
    unfold normSq at h
    have hx0 : a.x * a.x = 0 := by linarith
    have hy0 : a.y * a.y = 0 := by linarith
    have hz0 : a.z * a.z = 0 := by linarith
    ext <;> simpa [zero] using by
      first
      | exact mul_self_eq_zero.mp hx0
      | exact mul_self_eq_zero.mp hy0
      | exact mul_self_eq_zero.mp hz0
  · intro h; subst h; simp [normSq, zero]

theorem magnitude_eq_zero_iff (a : Vec3) : a.magnitude = 0 ↔ a = zero := by
  unfold magnitude
  rw [Real.sqrt_eq_zero a.normSq_nonneg]
  exact a.normSq_eq_zero_iff

theorem magnitude_smul (c : ℝ) (a : Vec3) :
    (smul c a).magnitude = |c| * a.magnitude := by
  unfold magnitude normSq smul
  have h : c * a.x * (c * a.x) + c * a.y * (c * a.y) + c * a.z * (c * a.z)
      = c ^ 2 * (a.x * a.x + a.y * a.y + a.z * a.z) := by ring
  simp only [h]
  rw [Real.sqrt_mul (sq_nonneg c), Real.sqrt_sq_eq_abs]

/-- Lagrange identity for the cross product. -/
theorem normSq_cross (a b : Vec3) :
    (cross a b).normSq = a.normSq * b.normSq - dot a b * dot a b := by
  unfold cross normSq dot; ring

theorem dot_cross_left (a b : Vec3) : dot a (cross a b) = 0 := by
  unfold cross dot; ring

theorem dot_cross_right (a b : Vec3) : dot b (cross a b) = 0 := by
  unfold cross dot; ring

/-- `(a × b) × a = (a⬝a) b − (a⬝b) a`. -/
theorem cross_cross_left (a b : Vec3) :
    cross (cross a b) a = sub (smul (dot a a) b) (smul (dot a b) a) := by
  unfold cross dot smul sub; ext <;> ring

/-- Scalar triple product is invariant under cyclic permutation. -/
theorem triple_cycle (a b c : Vec3) : dot (cross a b) c = dot a (cross b c) := by
  unfold cross dot; ring

end Vec3

/-- A 3×3 real matrix stored as rows, modelling `Matrix3d` of `geometry-core`. -/
@[ext]
structure Matrix3 where
  r0 : Vec3
  r1 : Vec3
  r2 : Vec3

namespace Matrix3

/-- The identity matrix. -/
def one : Matrix3 := ⟨⟨1, 0, 0⟩, ⟨0, 1, 0⟩, ⟨0, 0, 1⟩⟩

/-- Matrix applied to a vector (`multiplyVector`): rows dotted with `v`. -/
def mulVec (M : Matrix3) (v : Vec3) : Vec3 :=
  ⟨Vec3.dot M.r0 v, Vec3.dot M.r1 v, Vec3.dot M.r2 v⟩

/-- Transpose. -/
def transpose (M : Matrix3) : Matrix3 :=
  ⟨⟨M.r0.x, M.r1.x, M.r2.x⟩, ⟨M.r0.y, M.r1.y, M.r2.y⟩, ⟨M.r0.z, M.r1.z, M.r2.z⟩⟩

/-- Transposed matrix applied to a vector (`multiplyTransposeVector`). -/
def mulTransposeVec (M : Matrix3) (v : Vec3) : Vec3 := M.transpose.mulVec v

/-- Matrix product. -/
def mul (A B : Matrix3) : Matrix3 :=
  ⟨B.transpose.mulVec A.r0, B.transpose.mulVec A.r1, B.transpose.mulVec A.r2⟩

/-- Determinant, as the scalar triple product of the rows. -/
def det (M : Matrix3) : ℝ := Vec3.dot M.r0 (Vec3.cross M.r1 M.r2)

/-- The matrix with the given columns (`createColumns`). -/
def ofColumns (c0 c1 c2 : Vec3) : Matrix3 :=
  ⟨⟨c0.x, c1.x, c2.x⟩, ⟨c0.y, c1.y, c2.y⟩, ⟨c0.z, c1.z, c2.z⟩⟩

/-- Column 0 of the matrix (`getColumn(0)`). -/
def col0 (M : Matrix3) : Vec3 := ⟨M.r0.x, M.r1.x, M.r2.x⟩

/-- Column 1 of the matrix (`getColumn(1)`). -/
def col1 (M : Matrix3) : Vec3 := ⟨M.r0.y, M.r1.y, M.r2.y⟩

/-- Column 2 of the matrix (`getColumn(2)`). -/
def col2 (M : Matrix3) : Vec3 := ⟨M.r0.z, M.r1.z, M.r2.z⟩

/-- Scalar multiple of a matrix. -/
def smulMat (c : ℝ) (M : Matrix3) : Matrix3 :=
  ⟨Vec3.smul c M.r0, Vec3.smul c M.r1, Vec3.smul c M.r2⟩

/-- The adjugate (transposed cofactor matrix). -/
def adjugate (M : Matrix3) : Matrix3 :=
  ofColumns (Vec3.cross M.r1 M.r2) (Vec3.cross M.r2 M.r0) (Vec3.cross M.r0 M.r1)

/-- Explicit inverse by Cramer's rule (the adjugate divided by the
determinant); meaningful only when the determinant is nonzero. -/
def invFormula (M : Matrix3) : Matrix3 := smulMat (1 / M.det) M.adjugate

/-- Matrix inverse (`inverse`), `none` when the matrix is singular. -/
def inverse (M : Matrix3) : Option Matrix3 :=
  if M.det = 0 then none else some M.invFormula

theorem mul_assoc (A B C : Matrix3) : mul (mul A B) C = mul A (mul B C) := by
  unfold mul transpose mulVec Vec3.dot
  ext <;> ring

theorem one_mul (A : Matrix3) : mul one A = A := by
  unfold mul one transpose mulVec Vec3.dot
  ext <;> ring

theorem mul_one (A : Matrix3) : mul A one = A := by
  unfold mul one transpose mulVec Vec3.dot
  ext <;> ring

theorem det_mul (A B : Matrix3) : (mul A B).det = A.det * B.det := by
  unfold mul det transpose mulVec Vec3.dot Vec3.cross
  ring

theorem det_one : one.det = 1 := by
  unfold one det Vec3.dot Vec3.cross; norm_num

theorem det_transpose (M : Matrix3) : M.transpose.det = M.det := by
  unfold transpose det Vec3.dot Vec3.cross; ring

theorem mul_smulMat (c : ℝ) (A B : Matrix3) :
    mul A (smulMat c B) = smulMat c (mul A B) := by
  unfold mul smulMat transpose mulVec Vec3.dot Vec3.smul
  ext <;> ring

theorem smulMat_mul (c : ℝ) (A B : Matrix3) :
    mul (smulMat c A) B = smulMat c (mul A B) := by
  unfold mul smulMat transpose mulVec Vec3.dot Vec3.smul
  ext <;> ring

theorem smulMat_smulMat (a b : ℝ) (M : Matrix3) :
    smulMat a (smulMat b M) = smulMat (a * b) M := by
  unfold smulMat Vec3.smul; ext <;> ring

theorem smulMat_one_id (M : Matrix3) : smulMat 1 M = M := by
  unfold smulMat Vec3.smul; ext <;> ring

theorem mul_adjugate (M : Matrix3) : mul M M.adjugate = smulMat M.det one := by
  ext <;>
    simp only [mul, adjugate, ofColumns, one, transpose, mulVec, smulMat, det,
      Vec3.dot, Vec3.cross, Vec3.smul] <;>
    ring

theorem adjugate_mul (M : Matrix3) : mul M.adjugate M = smulMat M.det one := by
  ext <;>
    simp only [mul, adjugate, ofColumns, one, transpose, mulVec, smulMat, det,
      Vec3.dot, Vec3.cross, Vec3.smul] <;>
    ring

theorem mul_invFormula (M : Matrix3) (h : M.det ≠ 0) :
    mul M M.invFormula = one ∧ mul M.invFormula M = one := by
  constructor
  · rw [invFormula, mul_smulMat, mul_adjugate, smulMat_smulMat,
      one_div_mul_cancel h, smulMat_one_id]
  · rw [invFormula, smulMat_mul, adjugate_mul, smulMat_smulMat,
      one_div_mul_cancel h, smulMat_one_id]

/-- Any left inverse is also a right inverse. -/
theorem leftInv_rightInv (A B : Matrix3) (h : mul A B = one) : mul B A = one := by
  have hdet : A.det * B.det = 1 := by
    have := det_mul A B
    rw [h, det_one] at this
    linarith [this]
  have hB : B.det ≠ 0 := by
    intro h0; rw [h0] at hdet; norm_num at hdet
  obtain ⟨hBi, hiB⟩ := mul_invFormula B hB
  calc mul B A = mul (mul B A) one := (mul_one _).symm
    _ = mul (mul B A) (mul B B.invFormula) := by rw [hBi]
    _ = mul B (mul (mul A B) B.invFormula) := by
          rw [mul_assoc, mul_assoc]
    _ = mul B B.invFormula := by rw [h, one_mul]
    _ = one := hBi

/-- If `M * N = 1` then `inverse M = some N`. -/
theorem inverse_eq_of_mul_eq_one (M N : Matrix3) (h : mul M N = one) :
    M.inverse = some N := by
  have hdet : M.det * N.det = 1 := by
    have := det_mul M N
    rw [h, det_one] at this
    linarith [this]
  have hM : M.det ≠ 0 := by
    intro h0; rw [h0] at hdet; norm_num at hdet
  obtain ⟨hMi, hiM⟩ := mul_invFormula M hM
  have hNeq : N = M.invFormula := by
    calc N = mul one N := (one_mul _).symm
      _ = mul (mul M.invFormula M) N := by rw [hiM]
      _ = mul M.invFormula (mul M N) := by rw [mul_assoc]
      _ = mul M.invFormula one := by rw [h]
      _ = M.invFormula := mul_one _
  rw [inverse, if_neg hM, hNeq]

end Matrix3

namespace Vec3

theorem normSq_eq_dot (a : Vec3) : a.normSq = dot a a := rfl

theorem sub_eq_zero_iff (a b : Vec3) : sub a b = zero ↔ a = b := by
  constructor
  · intro h
    have hx := congrArg Vec3.x h
    have hy := congrArg Vec3.y h
    have hz := congrArg Vec3.z h
    simp only [sub, zero] at hx hy hz
    ext
    · linarith [hx]
    · linarith [hy]
    · linarith [hz]
  · intro h; subst h; ext <;> simp [sub, zero]

end Vec3

namespace Matrix3

/-- A rigid (proper orthonormal) matrix: unit rows, mutually orthogonal rows,
determinant `+1`.  This is `Matrix3d.isRigid()` in exact arithmetic. -/
def isRigid (M : Matrix3) : Prop :=
  Vec3.dot M.r0 M.r0 = 1 ∧ Vec3.dot M.r1 M.r1 = 1 ∧ Vec3.dot M.r2 M.r2 = 1 ∧
  Vec3.dot M.r0 M.r1 = 0 ∧ Vec3.dot M.r0 M.r2 = 0 ∧ Vec3.dot M.r1 M.r2 = 0 ∧
  M.det = 1

theorem isRigid_one : isRigid one := by
  refine ⟨?_, ?_, ?_, ?_, ?_, ?_, det_one⟩ <;>
    norm_num [one, Vec3.dot]

theorem isRigid.mul_transpose_eq_one {M : Matrix3} (h : isRigid M) :
    mul M M.transpose = one := by
  obtain ⟨h00, h11, h22, h01, h02, h12, _⟩ := h
  unfold Vec3.dot at h00 h11 h22 h01 h02 h12
  unfold mul one transpose mulVec Vec3.dot
  ext <;> simp only [] <;> linarith [h00, h11, h22, h01, h02, h12]

theorem isRigid.transpose_mul_eq_one {M : Matrix3} (h : isRigid M) :
    mul M.transpose M = one :=
  leftInv_rightInv M M.transpose h.mul_transpose_eq_one

theorem isRigid.det_eq_one {M : Matrix3} (h : isRigid M) : M.det = 1 :=
  h.2.2.2.2.2.2

/-- For a rigid matrix, the third row is the cross product of the first two. -/
theorem isRigid.cross_r0_r1 {M : Matrix3} (h : isRigid M) :
    Vec3.cross M.r0 M.r1 = M.r2 := by
  obtain ⟨h00, h11, h22, h01, h02, h12, hdet⟩ := h
  have hcc : (Vec3.cross M.r0 M.r1).normSq = 1 := by
    rw [Vec3.normSq_cross, Vec3.normSq_eq_dot, Vec3.normSq_eq_dot, h00, h11, h01]
    ring
  have hcr2 : Vec3.dot (Vec3.cross M.r0 M.r1) M.r2 = 1 := by
    rw [Vec3.triple_cycle]
    exact hdet
  have hsub : Vec3.normSq (Vec3.sub (Vec3.cross M.r0 M.r1) M.r2) = 0 := by
    have hexp : Vec3.normSq (Vec3.sub (Vec3.cross M.r0 M.r1) M.r2)
        = (Vec3.cross M.r0 M.r1).normSq
          - 2 * Vec3.dot (Vec3.cross M.r0 M.r1) M.r2 + M.r2.normSq := by
      unfold Vec3.normSq Vec3.sub Vec3.dot Vec3.cross
      ring
    rw [hexp, hcc, hcr2, Vec3.normSq_eq_dot, h22]
    ring
  exact (Vec3.sub_eq_zero_iff _ _).mp ((Vec3.normSq_eq_zero_iff _).mp hsub)

/-- For a rigid matrix, `r2 × r0 = r1`. -/
theorem isRigid.cross_r2_r0 {M : Matrix3} (h : isRigid M) :
    Vec3.cross M.r2 M.r0 = M.r1 := by
  have hc := h.cross_r0_r1
  obtain ⟨h00, _, _, h01, _, _, _⟩ := h
  rw [← hc, Vec3.cross_cross_left, h00, h01]
  ext <;> simp [Vec3.sub, Vec3.smul]

/-- The inverse of a rigid matrix is its transpose. -/
theorem isRigid.inverse_eq_transpose {M : Matrix3} (h : isRigid M) :
    M.inverse = some M.transpose :=
  inverse_eq_of_mul_eq_one M M.transpose h.mul_transpose_eq_one

/-- The transpose of a rigid matrix is rigid. -/
theorem isRigid.transpose {M : Matrix3} (h : isRigid M) :
    isRigid M.transpose := by
  have hmt := h.transpose_mul_eq_one
  have h00 : Vec3.dot M.transpose.r0 M.transpose.r0 = 1 := by
    have hx := congrArg (fun A => A.r0.x) hmt
    simp only [mul, mulVec, Matrix3.transpose, one, Vec3.dot] at hx ⊢
    linarith [hx]
  have h11 : Vec3.dot M.transpose.r1 M.transpose.r1 = 1 := by
    have hx := congrArg (fun A => A.r1.y) hmt
    simp only [mul, mulVec, Matrix3.transpose, one, Vec3.dot] at hx ⊢
    linarith [hx]
  have h22 : Vec3.dot M.transpose.r2 M.transpose.r2 = 1 := by
    have hx := congrArg (fun A => A.r2.z) hmt
    simp only [mul, mulVec, Matrix3.transpose, one, Vec3.dot] at hx ⊢
    linarith [hx]
  have h01 : Vec3.dot M.transpose.r0 M.transpose.r1 = 0 := by
    have hx := congrArg (fun A => A.r0.y) hmt
    simp only [mul, mulVec, Matrix3.transpose, one, Vec3.dot] at hx ⊢
    linarith [hx]
  have h02 : Vec3.dot M.transpose.r0 M.transpose.r2 = 0 := by
    have hx := congrArg (fun A => A.r0.z) hmt
    simp only [mul, mulVec, Matrix3.transpose, one, Vec3.dot] at hx ⊢
    linarith [hx]
  have h12 : Vec3.dot M.transpose.r1 M.transpose.r2 = 0 := by
    have hx := congrArg (fun A => A.r1.z) hmt
    simp only [mul, mulVec, Matrix3.transpose, one, Vec3.dot] at hx ⊢
    linarith [hx]
  exact ⟨h00, h11, h22, h01, h02, h12, by rw [det_transpose]; exact h.det_eq_one⟩

end Matrix3

/-! ## Constants of the external math library and of the repository -/

namespace Constant

/-- `Constant.oneMeter` of `geometry-core` (meters are the unit system). -/
def oneMeter : ℝ := 1

/-- `Constant.oneKilometer`. -/
def oneKilometer : ℝ := 1000

/-- `Constant.oneMillimeter`. -/
def oneMillimeter : ℝ := 1 / 1000

/-- `Constant.oneCentimeter`. -/
def oneCentimeter : ℝ := 1 / 100

/-- `Constant.diameterOfEarth` (12742 km). -/
def diameterOfEarth : ℝ := 12742 * oneKilometer

end Constant

/-- `Geometry.smallMetricDistance` of `geometry-core` (1.0e-6 meters). -/
def smallMetricDistance : ℝ := 1 / 1000000

/-- Two-argument arctangent, modelling `Math.atan2(y, x)`. -/
def atan2 (y x : ℝ) : ℝ :=
  if 0 < x then Real.arctan (y / x)
  else if x < 0 then
    (if 0 ≤ y then Real.arctan (y / x) + Real.pi else Real.arctan (y / x) - Real.pi)
  else (if 0 < y then Real.pi / 2 else if y < 0 then -(Real.pi / 2) else 0)

/-- The `ViewStatus` enumeration of `ViewState.ts` (lines 53-70). -/
inductive ViewStatus where
  | Success
  | ViewNotInitialized
  | AlreadyAttached
  | NotAttached
  | DrawFailure
  | NotResized
  | ModelNotFound
  | InvalidWindow
  | MinWindow
  | MaxWindow
  | MaxZoom
  | MaxDisplayDepth
  | InvalidUpVector
  | InvalidTargetPoint
  | InvalidLens
  | InvalidViewport
deriving DecidableEq, Repr

/-- `ExtentLimits` of `ViewState.ts` (lines 90-95): smallest and largest
allowed view extent in any dimension. -/
structure ExtentLimits where
  min : ℝ
  max : ℝ

/-- Modelled from the spec: the `Camera` sub-entity of the 3D view
(`imodeljs-common`, not under `src/`): "stored eye point, lens angle, focus
distance" (spec §2, §3).  The lens angle is kept in radians. -/
structure Camera where
  lens : ℝ
  focusDist : ℝ
  eye : Vec3

namespace Camera

/-- Modelled from the spec: `setLensAngle` stores the lens angle; the
`ViewState3d.setLensAngle` wrapper (src line 1324) returns `void`, so the
store itself cannot fail. -/
def setLensAngle (c : Camera) (a : ℝ) : Camera := { c with lens := a }

/-- Modelled from the spec: `setFocusDistance` stores the focus distance
("caller responsible — no clamping here", spec §4.1). -/
def setFocusDistance (c : Camera) (d : ℝ) : Camera := { c with focusDist := d }

/-- Modelled from the spec: `setEyePoint` stores the eye point. -/
def setEyePoint (c : Camera) (p : Vec3) : Camera := { c with eye := p }

/-- Modelled from the spec: `isValidLensAngle` — the lens angle must lie in
`(0.0001, π)` (spec §4.1 together with the `lookAtUsingLensAngle` bound). -/
def isValidLensAngle (a : ℝ) : Prop := 0.0001 < a ∧ a < Real.pi

/-- Modelled from the spec: `validateLens` "forces stored lens angle into a
valid default if out of range (self-healing, used before distance
recomputation)" (spec §4.1); the default is a right angle. -/
def validateLens (c : Camera) : Camera :=
  if isValidLensAngle c.lens then c else { c with lens := Real.pi / 2 }

end Camera

/-- `MarginPercent` of `ViewState.ts` (lines 76-84): each fraction is clamped
to `[0, 0.25]` at construction. -/
structure MarginPercent where
  left : ℝ
  top : ℝ
  right : ℝ
  bottom : ℝ

/-- The `MarginPercent` constructor: clamps every field to `[0, 0.25]`
(`Geometry.clamp`). -/
def MarginPercent.create (l t r b : ℝ) : MarginPercent :=
  let clamp01 := fun v : ℝ => min (max v 0) 0.25
  ⟨clamp01 l, clamp01 t, clamp01 r, clamp01 b⟩

/-- Modelled from the spec: the 8-point `Frustum` of `imodeljs-common`
(not under `src/`): "exactly 8 points in world space, ordered as a fixed
enumeration (eight combinations of {left,right} × {bottom,top} ×
{back,front})" (spec §3).  Field names follow the `Npc` corner enumeration
used by `ViewState.ts` (`Npc.LeftBottomRear`, ...). -/
structure Frustum where
  leftBottomRear : Vec3
  rightBottomRear : Vec3
  leftTopRear : Vec3
  rightTopRear : Vec3
  leftBottomFront : Vec3
  rightBottomFront : Vec3
  leftTopFront : Vec3
  rightTopFront : Vec3

namespace Frustum

/-- Modelled from the spec: `fixPointOrder` "canonicalize point
order/handedness ... must guarantee a consistent winding before proceeding"
(spec §4.3 step 1): when the scalar triple product of the three edges leaving
the rear lower-left corner is negative (a left-handed ordering), the front
and back planes are swapped; otherwise the order is already consistent and
the frustum is unchanged. -/
def fixPointOrder (f : Frustum) : Frustum :=
  let o := f.leftBottomRear
  let tp := Vec3.dot
    (Vec3.cross (Vec3.sub f.rightBottomRear o) (Vec3.sub f.leftTopRear o))
    (Vec3.sub f.leftBottomFront o)
  if 0 ≤ tp then f
  else
    ⟨f.leftBottomFront, f.rightBottomFront, f.leftTopFront, f.rightTopFront,
     f.leftBottomRear, f.rightBottomRear, f.leftTopRear, f.rightTopRear⟩

/-- Modelled from the spec: `getCenter` — the geometric center of the box,
the midpoint of the two extreme corners (rear lower-left and front
upper-right). -/
def getCenter (f : Frustum) : Vec3 :=
  Vec3.smul (1 / 2) (Vec3.add f.leftBottomRear f.rightTopFront)

end Frustum

/-! ## The view-parameter state (`ViewState3d`) -/

/-- The mutable fields of a `ViewState3d` (src lines 943-955) together with
the values of three accessors that the algorithms read:
`extentLimits` is the value of the `extentLimits` getter (explicit override
or per-kind default, src line 556), `aspectRatioSkew` the value of
`getAspectRatioSkew()` (a stored detail, default `1.0`, src line 691), and
`supportsCam` the virtual `supportsCamera()` (`true` for `SpatialViewState`,
`false` for `OrthographicViewState`). -/
structure ViewState3 where
  cameraOn : Bool
  origin : Vec3
  extents : Vec3
  rotation : Matrix3
  camera : Camera
  forceMinFrontDist : ℝ
  extentLimits : ExtentLimits
  aspectRatioSkew : ℝ
  supportsCam : Bool

/-- `SpatialViewState.defaultExtentLimits` (src line 1494): one millimeter to
the diameter of the earth. -/
def spatialExtentLimits : ExtentLimits :=
  ⟨Constant.oneMillimeter, Constant.diameterOfEarth⟩

namespace ViewState3

/-- `ViewState3d.turnCameraOff` (src line 1065). -/
def turnCameraOff (s : ViewState3) : ViewState3 := { s with cameraOn := false }

/-- `ViewState3d.enableCamera` (src line 1054): turns the camera on only when
the view supports a camera. -/
def enableCamera (s : ViewState3) : ViewState3 :=
  if s.supportsCam then { s with cameraOn := true } else s

/-- `ViewState3d.minimumFrontDistance` (src line 1056). -/
def minimumFrontDistance (s : ViewState3) : ℝ :=
  max (15.2 * Constant.oneCentimeter) s.forceMinFrontDist

/-- `ViewState3d.getBackDistance` (src lines 1247-1252): the view-z component
of the vector from the origin to the eye point. -/
def getBackDistance (s : ViewState3) : ℝ :=
  (s.rotation.mulVec (Vec3.sub s.camera.eye s.origin)).z

/-- `ViewState3d.getFrontDistance` (src line 1244). -/
def getFrontDistance (s : ViewState3) : ℝ := s.getBackDistance - s.extents.z

/-- `ViewState3d.calcLensAngle` (src lines 1071-1074). -/
def calcLensAngle (s : ViewState3) : ℝ :=
  let maxDelta := max s.extents.x s.extents.y
  2 * atan2 (maxDelta * 0.5) s.camera.focusDist

/-- `ViewState.getCenter` (src lines 372-375). -/
def getCenter (s : ViewState3) : Vec3 :=
  Vec3.plusScaled s.origin (s.rotation.mulTransposeVec s.extents) 0.5

/-- `ViewState3d.getTargetPoint` (src lines 1077-1083). -/
def getTargetPoint (s : ViewState3) : Vec3 :=
  if s.cameraOn then
    Vec3.plusScaled s.camera.eye s.rotation.r2 (-1 * s.camera.focusDist)
  else s.getCenter

end ViewState3

/-! ## Extent validation (`validateViewDelta`) -/

/-- The `limitWindowSize` closure of `ViewState.validateViewDelta`
(src lines 617-628): clamp one component to the extent limits, recording
`MinWindow`/`MaxWindow` unless errors are ignored for this component. -/
def limitWindowSize (limit : ExtentLimits) (v : ℝ) (ignoreError : Bool)
    (error : ViewStatus) : ℝ × ViewStatus :=
  if v < limit.min then
    (limit.min, if ignoreError then error else ViewStatus.MinWindow)
  else if v > limit.max then
    (limit.max, if ignoreError then error else ViewStatus.MaxWindow)
  else (v, error)

/-- `ViewState.validateViewDelta` (src lines 613-638): clamps every component
of `delta` to the extent limits; x and y record an error status, z is
clamped silently ("We ignore z error messages for the sake of 2D views").
The `messageNeeded` flag only routes a notification (src lines 634-635), an
I/O effect outside the state, so it does not influence the result. -/
def validateViewDelta (limit : ExtentLimits) (delta : Vec3)
    (messageNeeded : Bool) : Vec3 × ViewStatus :=
  let px := limitWindowSize limit delta.x false ViewStatus.Success
  let py := limitWindowSize limit delta.y false px.2
  let pz := limitWindowSize limit delta.z true py.2
  let _ := messageNeeded
  (⟨px.1, py.1, pz.1⟩, pz.2)

/-! ## The frustum-to-view solver (`setupFromFrustum`) -/

/-- `Matrix3d.createRigidFromColumns(vectorA, vectorB, AxisOrder.XYZ)` of the
external `geometry-core` math library, modelled as ideal real arithmetic:
a Gram-Schmidt-style rigid basis whose first column is along `a` and whose
second column lies in the span of `a, b`; it fails exactly when the inputs
are degenerate (zero `a` or parallel `a, b`, i.e. vanishing cross product). -/
def createRigidFromColumnsXYZ (a b : Vec3) : Option Matrix3 :=
  let c := Vec3.cross a b
  if a.magnitude = 0 ∨ c.magnitude = 0 then none
  else
    let u0 := Vec3.smul (1 / a.magnitude) a
    let u2 := Vec3.smul (1 / c.magnitude) c
    let u1 := Vec3.cross u2 u0
    some (Matrix3.ofColumns u0 u1 u2)

/-- Modelled from the spec: `StandardView.adjustToStandardRotation`
(`core/frontend/src/StandardView.ts`, not under `src/`): "if we're close to
one of the standard views, adjust to it to remove any 'fuzz'" (src line 514)
— "intentional UX smoothing, not mathematical necessity" (spec §4.3 step 4),
a tolerance-based snap whose only purpose is to remove floating-point noise.
In the exact-real embedding intermediate results carry no floating-point
fuzz and a matrix that is exactly a standard rotation is a fixed point of
the snap, so the adjustment acts as the identity. -/
def adjustToStandardRotation (m : Matrix3) : Matrix3 := m

/-- `ViewState.setupFromFrustum` (src lines 498-546): recover a rigid
origin/extents/rotation from an arbitrary 8-point frustum. -/
def setupFromFrustumBase (s : ViewState3) (inFrustum : Frustum) :
    ViewState3 × ViewStatus :=
  let frustum := inFrustum.fixPointOrder
  let viewOrg := frustum.leftBottomRear
  let frustumX := Vec3.sub frustum.rightBottomRear viewOrg
  let frustumY := Vec3.sub frustum.leftTopRear viewOrg
  let frustumZ := Vec3.sub frustum.leftBottomFront viewOrg
  match createRigidFromColumnsXYZ frustumX frustumY with
  | none => (s, ViewStatus.InvalidWindow)
  | some frustMatrix0 =>
    let frustMatrix := adjustToStandardRotation frustMatrix0
    let xDir := frustMatrix.col0
    let yDir := frustMatrix.col1
    let zDir := frustMatrix.col2
    match frustMatrix.inverse with
    | none => (s, ViewStatus.InvalidWindow)
    | some viewRot =>
      let zSize := Vec3.dot zDir frustumZ
      if zSize < 0 then (s, ViewStatus.InvalidWindow)
      else
        let viewDiagRoot :=
          Vec3.add (Vec3.add (Vec3.smul (Vec3.dot xDir frustumX) xDir)
                             (Vec3.smul (Vec3.dot yDir frustumY) yDir))
                   (Vec3.smul zSize zDir)
        let viewOrgNew := Vec3.plusScaled frustum.getCenter viewDiagRoot (-0.5)
        let viewDelta := viewRot.mulVec viewDiagRoot
        let vd := validateViewDelta s.extentLimits viewDelta false
        ({ s with origin := viewOrgNew, extents := vd.1, rotation := viewRot },
         ViewStatus.Success)

/-- `ViewState3d.setupFromFrustum` (src lines 993-1037): runs the base
solver, turns the camera off, then classifies the input frustum by comparing
front- and back-plane X spans: "exploding" frusta are rejected with
`InvalidWindow`, near-parallel frusta stay orthographic, and genuinely
tapered frusta re-derive the eye point, focus distance, origin and extents
and re-enable the camera. -/
def setupFromFrustum3d (s : ViewState3) (frustum : Frustum) :
    ViewState3 × ViewStatus :=
  let base := setupFromFrustumBase s frustum
  if base.2 ≠ ViewStatus.Success then base
  else
    let s1 := base.1.turnCameraOff
    let xBack := Vec3.dist frustum.leftBottomRear frustum.rightBottomRear
    let xFront := Vec3.dist frustum.leftBottomFront frustum.rightBottomFront
    let flatViewFractionTolerance : ℝ := 1 / 1000000
    if xFront > xBack * (1 + flatViewFractionTolerance) then
      (s1, ViewStatus.InvalidWindow)
    else
      let compression := xFront / xBack
      if compression ≥ 1 - flatViewFractionTolerance then (s1, ViewStatus.Success)
      else
        let viewOrg := frustum.leftBottomRear
        let viewDelta := s1.extents
        let zDir := s1.rotation.r2
        let frustumZ := Vec3.sub frustum.leftBottomFront viewOrg
        let frustOrgToEye := Vec3.smul (1 / (1 - compression)) frustumZ
        let eyePoint := Vec3.add viewOrg frustOrgToEye
        let backDistance := Vec3.dot frustOrgToEye zDir
        let focusDistance := backDistance - viewDelta.z / 2
        let focalFraction := focusDistance / backDistance
        let viewOrgNew := Vec3.add eyePoint
          (Vec3.add (Vec3.smul (-focalFraction) frustOrgToEye)
                    (Vec3.smul (focusDistance - backDistance) zDir))
        let viewDeltaNew : Vec3 :=
          ⟨viewDelta.x * focalFraction, viewDelta.y * focalFraction, viewDelta.z⟩
        let s2 := { s1 with
          camera := (s1.camera.setEyePoint eyePoint).setFocusDistance focusDistance,
          origin := viewOrgNew, extents := viewDeltaNew }
        let s3 := { s2 with camera := s2.camera.setLensAngle s2.calcLensAngle }
        (s3.enableCamera, ViewStatus.Success)

/-! ## The world-to-NPC / frustum calculator -/

/-- The intermediate camera quantities of `ViewState.computeWorldToNpc`
(src lines 420-448), including the z-fighting guard. `nearScale24` is the
near/far ratio threshold `Viewport.nearScale24` (frontend `Viewport.ts`, not
under `src/`), modelled from the spec as an explicit parameter ("a fixed
near/far ratio threshold (designed around a 24-bit depth-buffer budget)",
spec §4.2 step 2c). -/
structure CameraFrustumVars where
  eyeToOrigin : Vec3
  zBack : ℝ
  zFront : ℝ
  zDelta : ℝ
  backFraction : ℝ
  frontFraction : ℝ
  frustFraction : ℝ

/-- The camera branch of `ViewState.computeWorldToNpc` (src lines 420-448)
up to the perspective fractions: eye-relative origin, the z-fighting guard
clamping `zBack` to 10 km and recomputing `zFront` from the near-scale
threshold, and the front/back perspective fractions. -/
def cameraFrustumVars (nearScale24 : ℝ) (s : ViewState3) : CameraFrustumVars :=
  let eyeToOrigin0 := s.rotation.mulVec (Vec3.sub s.origin s.camera.eye)
  let focusDistance := s.camera.focusDist
  let zDelta0 := s.extents.z
  let zBack0 := eyeToOrigin0.z
  let zFront0 := zBack0 + zDelta0
  if zFront0 / zBack0 < nearScale24 then
    let maximumBackClip := 10 * Constant.oneKilometer
    let zBack1 := if -zBack0 > maximumBackClip then -maximumBackClip else zBack0
    let eyeToOrigin1 : Vec3 := ⟨eyeToOrigin0.x, eyeToOrigin0.y, zBack1⟩
    let zFront1 := zBack1 * nearScale24
    let zDelta1 := zFront1 - eyeToOrigin1.z
    { eyeToOrigin := eyeToOrigin1, zBack := zBack1, zFront := zFront1,
      zDelta := zDelta1,
      backFraction := -zBack1 / focusDistance,
      frontFraction := -zFront1 / focusDistance,
      frustFraction := (-zFront1 / focusDistance) / (-zBack1 / focusDistance) }
  else
    { eyeToOrigin := eyeToOrigin0, zBack := zBack0, zFront := zFront0,
      zDelta := zDelta0,
      backFraction := -zBack0 / focusDistance,
      frontFraction := -zFront0 / focusDistance,
      frustFraction := (-zFront0 / focusDistance) / (-zBack0 / focusDistance) }

/-- The frustum data computed by `ViewState.computeWorldToNpc`
(src lines 404-474) with the default arguments: the frustum origin, its
three edge vectors, and the front/back perspective fraction that
`Map4d.createVectorFrustum` receives. -/
structure NpcSetup where
  origin : Vec3
  xExtent : Vec3
  yExtent : Vec3
  zExtent : Vec3
  frustFraction : ℝ

/-- `ViewState.computeWorldToNpc` (src lines 404-474) for a 3d view with the
default arguments: the camera branch uses the eye-relative quantities of
`cameraFrustumVars`; the orthographic branch maps the extents directly onto
the rotation rows. -/
def computeWorldToNpc (nearScale24 : ℝ) (s : ViewState3) : NpcSetup :=
  if s.cameraOn then
    let v := cameraFrustumVars nearScale24 s
    { origin := Vec3.add (s.rotation.mulTransposeVec
        ⟨v.eyeToOrigin.x * v.backFraction, v.eyeToOrigin.y * v.backFraction,
         v.eyeToOrigin.z⟩) s.camera.eye,
      xExtent := Vec3.smul (s.extents.x * v.backFraction) s.rotation.r0,
      yExtent := Vec3.smul (s.extents.y * v.backFraction) s.rotation.r1,
      zExtent := s.rotation.mulTransposeVec
        ⟨v.eyeToOrigin.x * (v.frontFraction - v.backFraction),
         v.eyeToOrigin.y * (v.frontFraction - v.backFraction), v.zDelta⟩,
      frustFraction := v.frustFraction }
  else
    { origin := s.origin,
      xExtent := Vec3.smul s.extents.x s.rotation.r0,
      yExtent := Vec3.smul s.extents.y s.rotation.r1,
      zExtent := Vec3.smul s.extents.z s.rotation.r2,
      frustFraction := 1 }

/-- One corner of the frustum produced by applying the
`Map4d.createVectorFrustum` mapping to an NPC unit-cube corner `(i, j, k)`
with quiet perspective division (`multiplyPoint3dArrayQuietNormalize`):
the rear plane (`k = 0`) carries the full X/Y edge vectors and the front
plane (`k = 1`) carries them scaled by the frustum fraction.  `geometry-core`
is modelled as ideal real arithmetic. -/
def frustumCorner (n : NpcSetup) (i j k : ℝ) : Vec3 :=
  let sxy := 1 + k * (n.frustFraction - 1)
  Vec3.add n.origin (Vec3.add (Vec3.smul k n.zExtent)
    (Vec3.add (Vec3.smul (i * sxy) n.xExtent) (Vec3.smul (j * sxy) n.yExtent)))

/-- `ViewState.calculateFrustum` (src lines 480-488): applies the world-to-NPC
mapping to the 8 NPC corners; `none` when `Map4d.createVectorFrustum` fails
(degenerate edge vectors, i.e. a singular box transform). -/
def calculateFrustum (nearScale24 : ℝ) (s : ViewState3) : Option Frustum :=
  let n := computeWorldToNpc nearScale24 s
  if (Matrix3.ofColumns n.xExtent n.yExtent n.zExtent).det = 0 then none
  else some
    ⟨frustumCorner n 0 0 0, frustumCorner n 1 0 0,
     frustumCorner n 0 1 0, frustumCorner n 1 1 0,
     frustumCorner n 0 0 1, frustumCorner n 1 0 1,
     frustumCorner n 0 1 1, frustumCorner n 1 1 1⟩

/-! ## Camera positioning (`lookAt` and friends) -/

/-- `ViewState3d.calculateMaxDepth` (src lines 1039-1045). -/
def calculateMaxDepth (delta zVec : Vec3) : ℝ :=
  let depthRatioLimit : ℝ := 100000000
  let maxTransformRowRatio : ℝ := 100000
  let minXYComponent := min |zVec.x| |zVec.y|
  let maxDepthRatio := if minXYComponent = 0 then depthRatioLimit
    else min (maxTransformRowRatio / minXYComponent) depthRatioLimit
  max delta.x delta.y * maxDepthRatio

/-- The orientation stage of `ViewState3d.lookAt` (src lines 1097-1118):
normalized up vector, eye-to-target axis with the focus distance, and the
rigid row basis built from two normalized cross products, failing with
`InvalidUpVector` / `InvalidTargetPoint` as in the source. -/
structure LookAtFrame where
  xVec : Vec3
  yVec : Vec3
  zVec : Vec3
  focusDist : ℝ

/-- Lines 1097-1118 of `ViewState3d.lookAt`: derive the rigid frame. -/
def lookAtFrame (s : ViewState3) (eyePoint targetPoint upVector : Vec3) :
    Except ViewStatus LookAtFrame :=
  if upVector.magnitude = 0 then .error ViewStatus.InvalidUpVector
  else
    let yVec0 := Vec3.smul (1 / upVector.magnitude) upVector
    let zVec0 := Vec3.sub eyePoint targetPoint
    let focusDist := zVec0.magnitude
    let zVec := Vec3.smul (1 / focusDist) zVec0
    if focusDist ≤ s.minimumFrontDistance then .error ViewStatus.InvalidTargetPoint
    else
      let cx := Vec3.cross yVec0 zVec
      if cx.magnitude < smallMetricDistance then .error ViewStatus.InvalidUpVector
      else
        let xVec := Vec3.smul (1 / cx.magnitude) cx
        let cy := Vec3.cross zVec xVec
        if cy.magnitude < smallMetricDistance then .error ViewStatus.InvalidUpVector
        else .ok ⟨xVec, Vec3.smul (1 / cy.magnitude) cy, zVec, focusDist⟩

/-- The distance stage of `ViewState3d.lookAt` (src lines 1120-1137):
resolved front/back distances and the view delta.  A supplied-but-zero
front/back distance falls back to the current one, mirroring the JavaScript
truthiness test `backDistance ? backDistance : this.getBackDistance()`. -/
structure LookAtDists where
  frontDist : ℝ
  backDist : ℝ
  delta : Vec3

/-- Lines 1120-1137 of `ViewState3d.lookAt`: clamp the distances. -/
def lookAtDists (s : ViewState3) (focusDist : ℝ)
    (newExtents : Option (ℝ × ℝ)) (frontDistIn backDistIn : Option ℝ) :
    LookAtDists :=
  let minFrontDist := s.minimumFrontDistance
  let backDist0 := match backDistIn with
    | some b => if b ≠ 0 then b else s.getBackDistance
    | none => s.getBackDistance
  let frontDist0 := match frontDistIn with
    | some f => if f ≠ 0 then f else s.getFrontDistance
    | none => s.getFrontDistance
  let delta0 : Vec3 := match newExtents with
    | some de => ⟨|de.1|, |de.2|, s.extents.z⟩
    | none => s.extents
  let frontDist1 := max frontDist0 (0.5 * Constant.oneMeter)
  let backDist1 := max backDist0 (focusDist + 0.5 * Constant.oneMeter)
  let backDist2 := if backDist1 < focusDist
    then focusDist + Constant.oneMillimeter else backDist1
  let frontDist2 := if frontDist1 > focusDist
    then focusDist - minFrontDist else frontDist1
  let frontDist3 := if frontDist2 < minFrontDist then minFrontDist else frontDist2
  ⟨frontDist3, backDist2, ⟨delta0.x, delta0.y, backDist2 - frontDist3⟩⟩

/-- The commit stage of `ViewState3d.lookAt` (src lines 1139-1158):
validation of the front-plane delta, the maximum-depth guard, and the write
of eye point, rotation, focus distance, origin, extents and lens angle. -/
def lookAtCommit (s : ViewState3) (eyePoint : Vec3) (fr : LookAtFrame)
    (d : LookAtDists) : ViewState3 × ViewStatus :=
  let frontDelta := Vec3.smul (d.frontDist / fr.focusDist) d.delta
  let vd := validateViewDelta s.extentLimits frontDelta false
  if vd.2 ≠ ViewStatus.Success then (s, vd.2)
  else if d.delta.z > calculateMaxDepth d.delta fr.zVec then
    (s, ViewStatus.MaxDisplayDepth)
  else
    let origin := Vec3.add eyePoint
      (Vec3.add (Vec3.smul (-d.backDist) fr.zVec)
        (Vec3.add (Vec3.smul (-0.5 * d.delta.x) fr.xVec)
                  (Vec3.smul (-0.5 * d.delta.y) fr.yVec)))
    let s1 := { s with
      camera := (s.camera.setEyePoint eyePoint).setFocusDistance fr.focusDist,
      rotation := ⟨fr.xVec, fr.yVec, fr.zVec⟩, origin := origin, extents := d.delta }
    let s2 := { s1 with camera := s1.camera.setLensAngle s1.calcLensAngle }
    (s2.enableCamera, ViewStatus.Success)

/-- `ViewState3d.lookAt` (src lines 1097-1159), assembled from its three
stages. -/
def lookAt (s : ViewState3) (eyePoint targetPoint upVector : Vec3)
    (newExtents : Option (ℝ × ℝ)) (frontDistIn backDistIn : Option ℝ) :
    ViewState3 × ViewStatus :=
  match lookAtFrame s eyePoint targetPoint upVector with
  | .error st => (s, st)
  | .ok fr =>
    lookAtCommit s eyePoint fr (lookAtDists s fr.focusDist newExtents frontDistIn backDistIn)

/-- `ViewState3d.lookAtUsingLensAngle` (src lines 1171-1186): drives the
extents from a field-of-view angle (radians), preserving the current aspect
ratio. -/
def lookAtUsingLensAngle (s : ViewState3) (eyePoint targetPoint upVector : Vec3)
    (fov : ℝ) (frontDistIn backDistIn : Option ℝ) : ViewState3 × ViewStatus :=
  let focusDist := (Vec3.sub targetPoint eyePoint).magnitude
  if focusDist ≤ Constant.oneMillimeter then (s, ViewStatus.InvalidTargetPoint)
  else if fov < 0.0001 ∨ fov > Real.pi then (s, ViewStatus.InvalidLens)
  else
    let extent := 2 * Real.tan (fov / 2) * focusDist
    let longAxis := max s.extents.x s.extents.y
    let d : ℝ × ℝ :=
      (s.extents.x * (extent / longAxis), s.extents.y * (extent / longAxis))
    lookAt s eyePoint targetPoint upVector (some d) frontDistIn backDistIn

/-- `Matrix3d.createRotationAroundVector` of the external `geometry-core`
math library (Rodrigues rotation), modelled as ideal real arithmetic: it
fails exactly when the axis cannot be normalized (zero length). -/
def createRotationAroundVector (axis : Vec3) (angle : ℝ) : Option Matrix3 :=
  if axis.magnitude = 0 then none
  else
    let v := Vec3.smul (1 / axis.magnitude) axis
    let c := Real.cos angle
    let sn := Real.sin angle
    some ⟨⟨c + v.x * v.x * (1 - c), v.x * v.y * (1 - c) + sn * v.z,
           v.x * v.z * (1 - c) - sn * v.y⟩,
          ⟨v.y * v.x * (1 - c) - sn * v.z, c + v.y * v.y * (1 - c),
           v.y * v.z * (1 - c) + sn * v.x⟩,
          ⟨v.z * v.x * (1 - c) + sn * v.y, v.z * v.y * (1 - c) - sn * v.x,
           c + v.z * v.z * (1 - c)⟩⟩

/-- `ViewState3d.rotateCameraWorld` (src lines 1232-1241): rotate the camera
about a world axis through `aboutPt` (default: the eye point) and re-aim via
`lookAt`. -/
def rotateCameraWorld (s : ViewState3) (angle : ℝ) (axis : Vec3)
    (aboutPt : Option Vec3) : ViewState3 × ViewStatus :=
  let about := aboutPt.getD s.camera.eye
  match createRotationAroundVector axis angle with
  | none => (s, ViewStatus.InvalidUpVector)
  | some rotation =>
    let newTarget := Vec3.add about (rotation.mulVec (Vec3.sub s.getTargetPoint about))
    let upVec := rotation.mulVec s.rotation.r1
    lookAt s s.camera.eye newTarget upVec none none none

/-! ## Volume fitting and aspect-ratio correction -/

/-- `ViewState3d.centerEyePoint` (src lines 1259-1264): place the eye aligned
with the view center at the given back distance (JavaScript truthiness: a
zero back distance falls back to the current one). -/
def centerEyePoint (s : ViewState3) (backDistance : Option ℝ) : ViewState3 :=
  let epz := match backDistance with
    | some b => if b ≠ 0 then b else s.getBackDistance
    | none => s.getBackDistance
  let half := Vec3.smul 0.5 s.extents
  let eye := s.rotation.mulTransposeVec ⟨half.x, half.y, epz⟩
  { s with camera := s.camera.setEyePoint (Vec3.add s.origin eye) }

/-- `ViewState3d.verifyFocusPlane` (src lines 1279-1310): ensure the focus
plane lies between the front and back planes, re-centering it otherwise. -/
def verifyFocusPlane (s : ViewState3) : ViewState3 :=
  if !s.cameraOn then s
  else
    let backDist := s.getBackDistance
    let frontDist := backDist - s.extents.z
    if backDist ≤ 0 ∨ frontDist ≤ 0 then
      let tanAngle := Real.tan (s.camera.lens / 2)
      let backDist2 := s.extents.z / tanAngle
      let s1 := { s with camera := s.camera.setFocusDistance (backDist2 / 2) }
      centerEyePoint s1 (some backDist2)
    else
      let focusDist := s.camera.focusDist
      if focusDist > frontDist ∧ focusDist < backDist then s
      else
        let s1 := { s with
          camera := s.camera.setFocusDistance (s.extents.z / 2 + frontDist) }
        let ratio := s1.camera.focusDist / focusDist
        let ext2 : Vec3 := ⟨s.extents.x * ratio, s.extents.y * ratio, s.extents.z⟩
        let origin2 := Vec3.add s1.camera.eye
          (Vec3.add (Vec3.smul (-backDist) s1.rotation.r2)
            (Vec3.add (Vec3.smul (-0.5 * ext2.x) s1.rotation.r0)
                      (Vec3.smul (-0.5 * ext2.y) s1.rotation.r1)))
        { s1 with extents := ext2, origin := origin2 }

/-- `ViewState.adjustAspectRatio` (src lines 572-596): if the extents' X/Y
ratio differs from the (skew-adjusted) window aspect beyond `1.0e-9`, grow
the shorter axis and re-center the origin in view-local space.  The source
asserts invertibility of the rotation with `trans.inverse()!`; the model
reads the inverse through `Option.getD`. -/
def adjustAspectRatio (s : ViewState3) (windowAspectIn : ℝ) : ViewState3 :=
  let extents := s.extents
  let viewAspect := extents.x / extents.y
  let windowAspect := windowAspectIn * s.aspectRatioSkew
  if |1 - viewAspect / windowAspect| < 1 / 1000000000 then s
  else
    let oldDelta := extents
    let newExtents : Vec3 :=
      if viewAspect > windowAspect then ⟨extents.x, extents.x / windowAspect, extents.z⟩
      else ⟨extents.y * windowAspect, extents.y, extents.z⟩
    let newOrigin0 := s.rotation.mulVec s.origin
    let newOrigin1 : Vec3 := ⟨newOrigin0.x + (oldDelta.x - newExtents.x) / 2,
                              newOrigin0.y + (oldDelta.y - newExtents.y) / 2,
                              newOrigin0.z⟩
    let originNew := (s.rotation.inverse.getD Matrix3.one).mulVec newOrigin1
    { s with origin := originNew, extents := newExtents }

/-- A world range (`Range3d` of `geometry-core`, modelled as ideal math):
low/high corners; the range is null when some low exceeds the high. -/
structure Range3 where
  low : Vec3
  high : Vec3

/-- `Range3d.isNull`, modelled as an inverted (empty) interval on some axis. -/
def Range3.isNull (r : Range3) : Prop :=
  r.high.x < r.low.x ∨ r.high.y < r.low.y ∨ r.high.z < r.low.z

/-- `ViewState.lookAtViewAlignedVolume` (src lines 829-908): fit the view to
a view-aligned volume, applying minimum depth, margins or the default 1.04
dilation, extent validation, aspect correction, re-centering, and (for 3d)
focus/eye placement. -/
def lookAtViewAlignedVolume (s : ViewState3) (volume : Range3)
    (aspect : Option ℝ) (margin : Option MarginPercent) : ViewState3 :=
  if volume.isNull then s
  else
    let newOrigin0 := volume.low
    let newDelta0 := Vec3.sub volume.high volume.low
    let minimumDepth := Constant.oneMillimeter
    let adjustDepth := newDelta0.z < minimumDepth
    let newOrigin1 : Vec3 := if adjustDepth then
        ⟨newOrigin0.x, newOrigin0.y, newOrigin0.z - (minimumDepth - newDelta0.z) / 2⟩
      else newOrigin0
    let newDelta1 : Vec3 := if adjustDepth then
        ⟨newDelta0.x, newDelta0.y, minimumDepth⟩ else newDelta0
    let isCameraOn := s.cameraOn
    let afterMargin : Vec3 × Vec3 × Vec3 :=
      if isCameraOn then (newOrigin1, newDelta1, newDelta1)
      else match margin with
        | some m =>
          let wPercent := m.left + m.right
          let hPercent := m.top + m.bottom
          let marginHorizontal := wPercent / (1 - wPercent) * newDelta1.x
          let marginVert := hPercent / (1 - hPercent) * newDelta1.y
          let marginLeft := m.left / (1 - wPercent) * newDelta1.x
          let marginBottom := m.bottom / (1 - hPercent) * newDelta1.y
          let o : Vec3 := ⟨newOrigin1.x - marginLeft, newOrigin1.y - marginBottom,
                           newOrigin1.z⟩
          let d : Vec3 := ⟨newDelta1.x + marginHorizontal,
                           newDelta1.y + marginVert, newDelta1.z⟩
          (o, d, d)
        | none => (newOrigin1, Vec3.smul 1.04 newDelta1, newDelta1)
    let newOrigin2 := afterMargin.1
    let newDelta2 := afterMargin.2.1
    let origNewDelta := afterMargin.2.2
    let newDelta3 : Vec3 :=
      if isCameraOn then
        let diag := newDelta2.magnitudeXY
        if diag > newDelta2.z then ⟨newDelta2.x, newDelta2.y, diag⟩ else newDelta2
      else newDelta2
    let vd := validateViewDelta s.extentLimits newDelta3 true
    let s1 := { s with extents := vd.1 }
    let s2 := match aspect with
      | some a => if a ≠ 0 then adjustAspectRatio s1 a else s1
      | none => s1
    let newDelta4 := s2.extents
    let newOrigin3 : Vec3 :=
      ⟨newOrigin2.x - (newDelta4.x - origNewDelta.x) / 2,
       newOrigin2.y - (newDelta4.y - origNewDelta.y) / 2,
       newOrigin2.z - (newDelta4.z - origNewDelta.z) / 2⟩
    let s3 := { s2 with origin := s2.rotation.mulTransposeVec newOrigin3 }
    let cam0 := s3.camera.validateLens
    let frontDist := max newDelta4.x newDelta4.y / (2 * Real.tan (cam0.lens / 2))
    let backDist := frontDist + newDelta4.z
    let s4 := { s3 with camera := cam0.setFocusDistance frontDist }
    let s5 := centerEyePoint s4 (some backDist)
    verifyFocusPlane s5

/-! ## Sample states for concrete instantiations -/

/-- A concrete spatial view state: camera off, unit rotation, extents
`(10, 10, 1)`, default spatial extent limits. -/
def sampleSpatialState : ViewState3 :=
  { cameraOn := false
    origin := ⟨0, 0, 0⟩
    extents := ⟨10, 10, 1⟩
    rotation := Matrix3.one
    camera := { lens := Real.pi / 2, focusDist := 0, eye := ⟨0, 0, 0⟩ }
    forceMinFrontDist := 0
    extentLimits := spatialExtentLimits
    aspectRatioSkew := 1
    supportsCam := true }

/-! ## Claim C10 -/

/-- C10: for every angle and axis for which no rotation matrix can be
constructed (e.g. a zero-length axis), `rotateCameraWorld` returns
`InvalidUpVector` and leaves the `ViewState` completely unchanged. -/
theorem rotateCameraWorld_invalid_axis (s : ViewState3) (angle : ℝ) (axis : Vec3)
    (aboutPt : Option Vec3) (h : createRotationAroundVector axis angle = none) :
    rotateCameraWorld s angle axis aboutPt = (s, ViewStatus.InvalidUpVector) := by
  simp only [rotateCameraWorld, h]

/-- Witness for C10 at the zero axis. -/
theorem rotateCameraWorld_invalid_axis_witness :
    createRotationAroundVector ⟨0, 0, 0⟩ 1 = none ∧
    rotateCameraWorld sampleSpatialState 1 ⟨0, 0, 0⟩ none
      = (sampleSpatialState, ViewStatus.InvalidUpVector) := by
  have h : createRotationAroundVector ⟨0, 0, 0⟩ 1 = none := by
    simp [createRotationAroundVector, Vec3.magnitude, Vec3.normSq]
  exact ⟨h, rotateCameraWorld_invalid_axis sampleSpatialState 1 ⟨0, 0, 0⟩ none h⟩

/-! ## Claim C9 -/

theorem setupFromFrustumBase_status_cases (s : ViewState3) (f : Frustum) :
    (setupFromFrustumBase s f).2 = ViewStatus.Success ∨
      ((setupFromFrustumBase s f).2 = ViewStatus.InvalidWindow ∧
       (setupFromFrustumBase s f).1 = s) := by
  simp only [setupFromFrustumBase]
  split
  · simp
  · split
    · simp
    · split
      · simp
      · simp

/-- C9: the base `ViewState.setupFromFrustum` never propagates the
`MinWindow`/`MaxWindow` status of its message-suppressed `validateViewDelta`
call: whenever it gets past its `InvalidWindow` checks it commits the
(possibly clamped) parameters and returns `Success`; otherwise it returns
`InvalidWindow` with the state untouched. -/
theorem setupFromFrustumBase_suppresses_clamp_status (s : ViewState3) (f : Frustum) :
    ((setupFromFrustumBase s f).2 = ViewStatus.Success ∨
      ((setupFromFrustumBase s f).2 = ViewStatus.InvalidWindow ∧
       (setupFromFrustumBase s f).1 = s)) ∧
    (setupFromFrustumBase s f).2 ≠ ViewStatus.MinWindow ∧
    (setupFromFrustumBase s f).2 ≠ ViewStatus.MaxWindow := by
  refine ⟨setupFromFrustumBase_status_cases s f, ?_, ?_⟩ <;>
    rcases setupFromFrustumBase_status_cases s f with h | ⟨h, _⟩ <;>
      rw [h] <;> simp

/-! ## Claim C6 -/

/-- C6: in `computeWorldToNpc` with the camera on, whenever `zFront/zBack`
falls below the near-scale threshold, the eye-to-back-plane distance is
clamped to at most 10 km (`zBack` set to `-10` km when it exceeds that),
`zFront` is recomputed as `zBack` times the near-scale threshold, the
effective Z extent becomes `zFront - zBack`, and the returned
`frustFraction` equals `(-zFront/focusDistance) / (-zBack/focusDistance)`. -/
theorem computeWorldToNpc_zfight_guard (nearScale24 : ℝ) (s : ViewState3)
    (hcam : s.cameraOn = true)
    (htrig : ((s.rotation.mulVec (Vec3.sub s.origin s.camera.eye)).z + s.extents.z)
        / (s.rotation.mulVec (Vec3.sub s.origin s.camera.eye)).z < nearScale24) :
    (10 * Constant.oneKilometer < -(s.rotation.mulVec (Vec3.sub s.origin s.camera.eye)).z →
      (cameraFrustumVars nearScale24 s).zBack = -(10 * Constant.oneKilometer)) ∧
    (-(s.rotation.mulVec (Vec3.sub s.origin s.camera.eye)).z ≤ 10 * Constant.oneKilometer →
      (cameraFrustumVars nearScale24 s).zBack
        = (s.rotation.mulVec (Vec3.sub s.origin s.camera.eye)).z) ∧
    -(cameraFrustumVars nearScale24 s).zBack ≤ 10 * Constant.oneKilometer ∧
    (cameraFrustumVars nearScale24 s).zFront
      = (cameraFrustumVars nearScale24 s).zBack * nearScale24 ∧
    (cameraFrustumVars nearScale24 s).zDelta
      = (cameraFrustumVars nearScale24 s).zFront - (cameraFrustumVars nearScale24 s).zBack ∧
    (cameraFrustumVars nearScale24 s).frustFraction
      = (-(cameraFrustumVars nearScale24 s).zFront / s.camera.focusDist)
        / (-(cameraFrustumVars nearScale24 s).zBack / s.camera.focusDist) ∧
    (computeWorldToNpc nearScale24 s).frustFraction
      = (cameraFrustumVars nearScale24 s).frustFraction := by
  have hmain : cameraFrustumVars nearScale24 s =
      let eyeToOrigin0 := s.rotation.mulVec (Vec3.sub s.origin s.camera.eye)
      let zBack1 := if -eyeToOrigin0.z > 10 * Constant.oneKilometer
        then -(10 * Constant.oneKilometer) else eyeToOrigin0.z
      { eyeToOrigin := ⟨eyeToOrigin0.x, eyeToOrigin0.y, zBack1⟩,
        zBack := zBack1, zFront := zBack1 * nearScale24,
        zDelta := zBack1 * nearScale24 - zBack1,
        backFraction := -zBack1 / s.camera.focusDist,
        frontFraction := -(zBack1 * nearScale24) / s.camera.focusDist,
        frustFraction := (-(zBack1 * nearScale24) / s.camera.focusDist)
          / (-zBack1 / s.camera.focusDist) } := by
    simp only [cameraFrustumVars]
    rw [if_pos htrig]
  rw [hmain]
  simp only [computeWorldToNpc, hcam, if_true]
  split_ifs with hclamp
  · refine ⟨fun _ => rfl, fun hle => absurd hclamp (not_lt.mpr hle), ?_, by trivial,
      by trivial, by trivial, ?_⟩
    · simp only [neg_neg, le_refl]
    · simp only [hmain]
      rw [if_pos hclamp]
  · have hle := not_lt.mp hclamp
    refine ⟨fun hgt => absurd hgt hclamp, fun _ => rfl, hle, by trivial,
      by trivial, by trivial, ?_⟩
    simp only [hmain]
    rw [if_neg hclamp]

/-- Witness for C6: rotation identity, eye at the world origin, view origin
20 km behind the eye, depth 19990 m, threshold `1/1000`: the guard triggers,
the back distance is clamped to 10 km and `zFront` becomes `-10`. -/
theorem computeWorldToNpc_zfight_guard_witness :
    (((({ sampleSpatialState with
        cameraOn := true,
        origin := ⟨0, 0, -20000⟩,
        extents := ⟨10, 10, 19990⟩,
        camera := { lens := Real.pi / 2, focusDist := 100, eye := ⟨0, 0, 0⟩ } } :
        ViewState3)).rotation.mulVec
          (Vec3.sub (⟨0, 0, -20000⟩ : Vec3) (⟨0, 0, 0⟩ : Vec3))).z
        + (19990 : ℝ)) / (-20000 : ℝ) < (1 / 1000 : ℝ) ∧
    (cameraFrustumVars (1 / 1000)
      ({ sampleSpatialState with
        cameraOn := true,
        origin := ⟨0, 0, -20000⟩,
        extents := ⟨10, 10, 19990⟩,
        camera := { lens := Real.pi / 2, focusDist := 100, eye := ⟨0, 0, 0⟩ } })).zBack
      = -(10 * Constant.oneKilometer) := by
  constructor
  · norm_num [sampleSpatialState, Matrix3.one, Matrix3.mulVec, Vec3.dot, Vec3.sub]
  · have h := computeWorldToNpc_zfight_guard (1 / 1000)
      ({ sampleSpatialState with
        cameraOn := true,
        origin := ⟨0, 0, -20000⟩,
        extents := ⟨10, 10, 19990⟩,
        camera := { lens := Real.pi / 2, focusDist := 100, eye := ⟨0, 0, 0⟩ } })
      (by rfl)
      (by norm_num [sampleSpatialState, Matrix3.one, Matrix3.mulVec, Vec3.dot, Vec3.sub])
    exact h.1 (by norm_num [sampleSpatialState, Matrix3.one, Matrix3.mulVec, Vec3.dot,
      Vec3.sub, Constant.oneKilometer])

/-! ## Claim C4 -/

/-- C4: `validateViewDelta` clamps every component below `extentLimits.min`
to the minimum and every component above `extentLimits.max` to the maximum;
the returned status is `MinWindow`/`MaxWindow` exactly when the X or Y
component was out of range, so an out-of-range Z component alone is clamped
with status `Success`. -/
theorem validateViewDelta_clamping (limit : ExtentLimits) (delta : Vec3)
    (messageNeeded : Bool) (hlim : limit.min ≤ limit.max) :
    (delta.x < limit.min → (validateViewDelta limit delta messageNeeded).1.x = limit.min) ∧
    (limit.max < delta.x → (validateViewDelta limit delta messageNeeded).1.x = limit.max) ∧
    (delta.y < limit.min → (validateViewDelta limit delta messageNeeded).1.y = limit.min) ∧
    (limit.max < delta.y → (validateViewDelta limit delta messageNeeded).1.y = limit.max) ∧
    (delta.z < limit.min → (validateViewDelta limit delta messageNeeded).1.z = limit.min) ∧
    (limit.max < delta.z → (validateViewDelta limit delta messageNeeded).1.z = limit.max) ∧
    ((validateViewDelta limit delta messageNeeded).2 = ViewStatus.Success ↔
      limit.min ≤ delta.x ∧ delta.x ≤ limit.max ∧
      limit.min ≤ delta.y ∧ delta.y ≤ limit.max) ∧
    ((validateViewDelta limit delta messageNeeded).2 = ViewStatus.Success ∨
     (validateViewDelta limit delta messageNeeded).2 = ViewStatus.MinWindow ∨
     (validateViewDelta limit delta messageNeeded).2 = ViewStatus.MaxWindow) := by
  simp only [validateViewDelta, limitWindowSize, Bool.false_eq_true, if_false]
  split_ifs <;>
    refine ⟨?_, ?_, ?_, ?_, ?_, ?_, ?_, ?_⟩ <;>
      first
        | (intro hh; first | rfl | linarith)
        | (simp; done)
        | (simp
           first
             | (intros; linarith)
             | exact ⟨by linarith, by linarith, by linarith, by linarith⟩)

/-- Witness for C4 at `delta = (0, 2e7, 0.5)` with the spatial limits:
X clamps to the minimum, Y to the maximum, Z is in range; the status reports
a window error. -/
theorem validateViewDelta_clamping_witness :
    (validateViewDelta spatialExtentLimits ⟨0, 20000000, 0.5⟩ false).1.x
        = spatialExtentLimits.min ∧
    (validateViewDelta spatialExtentLimits ⟨0, 20000000, 0.5⟩ false).1.y
        = spatialExtentLimits.max ∧
    ¬((validateViewDelta spatialExtentLimits ⟨0, 20000000, 0.5⟩ false).2
        = ViewStatus.Success) := by
  have h := validateViewDelta_clamping spatialExtentLimits ⟨0, 20000000, 0.5⟩ false
    (by norm_num [spatialExtentLimits, Constant.oneMillimeter, Constant.diameterOfEarth,
      Constant.oneKilometer])
  refine ⟨h.1 ?_, h.2.2.2.1 ?_, ?_⟩
  · norm_num [spatialExtentLimits, Constant.oneMillimeter]
  · norm_num [spatialExtentLimits, Constant.diameterOfEarth, Constant.oneKilometer]
  · intro hsucc
    have := (h.2.2.2.2.2.2.1).mp hsucc
    have hx := this.1
    norm_num [spatialExtentLimits, Constant.oneMillimeter] at hx

/-! ## Helper lemmas for concrete evaluation -/

theorem sqrt_ten_thousand : Real.sqrt 10000 = 100 := by
  rw [show (10000 : ℝ) = 100 ^ 2 by norm_num,
    Real.sqrt_sq (by norm_num : (0 : ℝ) ≤ 100)]

theorem validateViewDelta_status_cases (limit : ExtentLimits) (delta : Vec3)
    (m : Bool) :
    (validateViewDelta limit delta m).2 = ViewStatus.Success ∨
    (validateViewDelta limit delta m).2 = ViewStatus.MinWindow ∨
    (validateViewDelta limit delta m).2 = ViewStatus.MaxWindow := by
  simp only [validateViewDelta, limitWindowSize, Bool.false_eq_true, if_false]
  split_ifs <;> simp

theorem validateViewDelta_status_ne_lens (limit : ExtentLimits) (delta : Vec3)
    (m : Bool) : (validateViewDelta limit delta m).2 ≠ ViewStatus.InvalidLens := by
  rcases validateViewDelta_status_cases limit delta m with h | h | h <;>
    rw [h] <;> simp

theorem lookAtCommit_ne_invalidLens (s : ViewState3) (e : Vec3)
    (fr : LookAtFrame) (d : LookAtDists) :
    (lookAtCommit s e fr d).2 ≠ ViewStatus.InvalidLens := by
  simp only [lookAtCommit]
  split_ifs <;>
    first
      | exact validateViewDelta_status_ne_lens _ _ _
      | simpa using validateViewDelta_status_ne_lens _ _ _
      | simp

theorem lookAtFrame_error_cases (s : ViewState3) (e t u : Vec3) (st : ViewStatus)
    (h : lookAtFrame s e t u = .error st) :
    st = ViewStatus.InvalidUpVector ∨ st = ViewStatus.InvalidTargetPoint := by
  simp only [lookAtFrame] at h
  split_ifs at h <;> simp_all

/-- `lookAt` can fail only with `InvalidUpVector`, `InvalidTargetPoint`,
`MinWindow`/`MaxWindow` or `MaxDisplayDepth` — never `InvalidLens`. -/
theorem lookAt_ne_invalidLens (s : ViewState3) (e t u : Vec3)
    (ne : Option (ℝ × ℝ)) (fd bd : Option ℝ) :
    (lookAt s e t u ne fd bd).2 ≠ ViewStatus.InvalidLens := by
  unfold lookAt
  cases h : lookAtFrame s e t u with
  | error st =>
    rcases lookAtFrame_error_cases s e t u st h with h1 | h1 <;> simp [h1]
  | ok fr => exact lookAtCommit_ne_invalidLens _ _ _ _

/-! ## Claim C5 -/

theorem sub_target_eye_magnitude :
    (Vec3.sub ⟨0, 0, 0⟩ ⟨0, 0, 100⟩).magnitude = 100 := by
  have h : (Vec3.sub ⟨0, 0, 0⟩ ⟨0, 0, 100⟩ : Vec3).normSq = 10000 := by
    norm_num [Vec3.sub, Vec3.normSq]
  unfold Vec3.magnitude
  rw [h, sqrt_ten_thousand]

/-- C5 counterexample: with an otherwise-valid eye/target/up input, the
boundary field-of-view `fov = π` does *not* return `InvalidLens` — the
source rejects only `fov.radians > Math.PI` (strict), so the claim's
"≥ π returns InvalidLens" fails at exactly `π`. -/
theorem lookAtUsingLensAngle_pi_not_invalidLens :
    (lookAtUsingLensAngle sampleSpatialState ⟨0, 0, 100⟩ ⟨0, 0, 0⟩ ⟨0, 1, 0⟩
      Real.pi none none).2 ≠ ViewStatus.InvalidLens := by
  simp only [lookAtUsingLensAngle]
  rw [sub_target_eye_magnitude]
  rw [if_neg (by norm_num [Constant.oneMillimeter] :
    ¬(100 : ℝ) ≤ Constant.oneMillimeter)]
  rw [if_neg (by
    push_neg
    constructor
    · nlinarith [Real.pi_gt_three]
    · exact le_refl _)]
  exact lookAt_ne_invalidLens _ _ _ _ _ _ _

/-- C5 (amended): for every otherwise-valid eye/target/up input,
`lookAtUsingLensAngle` returns `InvalidLens` exactly when the field-of-view
angle is below `0.0001` radians (in particular when it is `≤ 0`) or strictly
above `π`; every angle in `[0.0001, π]` — including the boundary `0.0001`,
values just under `π`, and `π` itself — passes the lens check and never
yields `InvalidLens`. -/
theorem lookAtUsingLensAngle_lens_bounds (s : ViewState3) (e t u : Vec3)
    (fov : ℝ) (fd bd : Option ℝ) :
    ((Constant.oneMillimeter < (Vec3.sub t e).magnitude ∧
        (fov < 0.0001 ∨ Real.pi < fov)) →
      (lookAtUsingLensAngle s e t u fov fd bd).2 = ViewStatus.InvalidLens) ∧
    ((0.0001 ≤ fov ∧ fov ≤ Real.pi) →
      (lookAtUsingLensAngle s e t u fov fd bd).2 ≠ ViewStatus.InvalidLens) := by
  constructor
  · rintro ⟨hfocus, hlens⟩
    simp only [lookAtUsingLensAngle]
    rw [if_neg (not_le.mpr hfocus), if_pos hlens]
  · rintro ⟨h1, h2⟩
    simp only [lookAtUsingLensAngle]
    split_ifs with hf hl
    · simp
    · rcases hl with hl | hl
      · linarith
      · linarith
    · exact lookAt_ne_invalidLens _ _ _ _ _ _ _

/-- Witness for the amended C5: the tiny angle `0.00005` is rejected with
`InvalidLens`, while the boundary angle `0.0001` is not. -/
theorem lookAtUsingLensAngle_lens_bounds_witness :
    (lookAtUsingLensAngle sampleSpatialState ⟨0, 0, 100⟩ ⟨0, 0, 0⟩ ⟨0, 1, 0⟩
      0.00005 none none).2 = ViewStatus.InvalidLens ∧
    (lookAtUsingLensAngle sampleSpatialState ⟨0, 0, 100⟩ ⟨0, 0, 0⟩ ⟨0, 1, 0⟩
      0.0001 none none).2 ≠ ViewStatus.InvalidLens := by
  constructor
  · exact (lookAtUsingLensAngle_lens_bounds sampleSpatialState
      ⟨0, 0, 100⟩ ⟨0, 0, 0⟩ ⟨0, 1, 0⟩ 0.00005 none none).1
      ⟨by rw [sub_target_eye_magnitude]; norm_num [Constant.oneMillimeter],
       Or.inl (by norm_num)⟩
  · exact (lookAtUsingLensAngle_lens_bounds sampleSpatialState
      ⟨0, 0, 100⟩ ⟨0, 0, 0⟩ ⟨0, 1, 0⟩ 0.0001 none none).2
      ⟨le_refl _, by nlinarith [Real.pi_gt_three]⟩

/-! ## Claim C2 -/

theorem sqrt_four : Real.sqrt 4 = 2 := by
  rw [show (4 : ℝ) = 2 ^ 2 by norm_num, Real.sqrt_sq (by norm_num : (0 : ℝ) ≤ 2)]

/-- A tapered ("exploding") frustum: unit back plane, front plane twice as
wide in X. -/
def frustumC2 : Frustum :=
  ⟨⟨0, 0, 0⟩, ⟨1, 0, 0⟩, ⟨0, 1, 0⟩, ⟨1, 1, 0⟩,
   ⟨0, 0, 1⟩, ⟨2, 0, 1⟩, ⟨0, 1, 1⟩, ⟨2, 1, 1⟩⟩

/-- A spatial state with the camera on, used to exhibit the non-atomic
rejection. -/
def stateC2 : ViewState3 :=
  { sampleSpatialState with cameraOn := true, origin := ⟨9, 9, 9⟩ }

/-- The state committed by the base solver on `frustumC2`. -/
def stateC2After : ViewState3 :=
  { stateC2 with
    origin := ⟨0.5, 0, 0⟩
    extents := ⟨1, 1, 1⟩
    rotation := Matrix3.one }

theorem setupFromFrustumBase_stateC2 :
    setupFromFrustumBase stateC2 frustumC2 = (stateC2After, ViewStatus.Success) := by
  norm_num [setupFromFrustumBase, frustumC2, stateC2, sampleSpatialState,
    Frustum.fixPointOrder, Frustum.getCenter, createRigidFromColumnsXYZ,
    adjustToStandardRotation, Matrix3.ofColumns, Matrix3.col0, Matrix3.col1,
    Matrix3.col2, Matrix3.inverse, Matrix3.invFormula, Matrix3.adjugate,
    Matrix3.smulMat, Matrix3.det, Matrix3.one, Matrix3.mulVec, Vec3.dot,
    Vec3.cross, Vec3.sub, Vec3.add, Vec3.smul, Vec3.plusScaled,
    Vec3.magnitude, Vec3.normSq, validateViewDelta, limitWindowSize,
    spatialExtentLimits, Constant.oneMillimeter, Constant.diameterOfEarth,
    Constant.oneKilometer, Real.sqrt_one, stateC2After]

theorem distC2_back : Vec3.dist frustumC2.leftBottomRear frustumC2.rightBottomRear = 1 := by
  simp only [frustumC2, Vec3.dist, Vec3.sub, Vec3.magnitude, Vec3.normSq]
  norm_num [Real.sqrt_one]

theorem distC2_front : Vec3.dist frustumC2.leftBottomFront frustumC2.rightBottomFront = 2 := by
  simp only [frustumC2, Vec3.dist, Vec3.sub, Vec3.magnitude, Vec3.normSq]
  norm_num [sqrt_four]

/-- C2 counterexample: on the tapered `frustumC2` (front X-span twice the
back X-span), `ViewState3d.setupFromFrustum` does return `InvalidWindow` —
but the `ViewState` is *not* left unchanged: the base-class parameters were
already committed and the camera flag was switched off before the taper
check, so the rejection is not atomic. -/
theorem taperedFrustum_rejection_not_atomic :
    (setupFromFrustum3d stateC2 frustumC2).2 = ViewStatus.InvalidWindow ∧
    stateC2.cameraOn = true ∧
    (setupFromFrustum3d stateC2 frustumC2).1.cameraOn = false ∧
    (setupFromFrustum3d stateC2 frustumC2).1.origin ≠ stateC2.origin := by
  have hbase := setupFromFrustumBase_stateC2
  simp only [setupFromFrustum3d, hbase]
  rw [distC2_back, distC2_front]
  norm_num [ViewState3.turnCameraOff, stateC2After, stateC2, sampleSpatialState]

/-- C2 (amended): a frustum whose front-plane X-span exceeds its back-plane
X-span by more than a `1e-6` fraction is always rejected with
`InvalidWindow`; however the rejection is not atomic: the resulting state is
either the original one (when the base solver itself failed) or the state
committed by the base solver with the camera flag turned off. -/
theorem taperedFrustum_rejected_invalidWindow (s : ViewState3) (f : Frustum)
    (htaper : Vec3.dist f.leftBottomRear f.rightBottomRear * (1 + 1 / 1000000)
       < Vec3.dist f.leftBottomFront f.rightBottomFront) :
    (setupFromFrustum3d s f).2 = ViewStatus.InvalidWindow ∧
    ((setupFromFrustum3d s f).1 = s ∨
     (setupFromFrustum3d s f).1 = (setupFromFrustumBase s f).1.turnCameraOff) := by
  simp only [setupFromFrustum3d]
  rcases setupFromFrustumBase_status_cases s f with hsucc | ⟨hiw, hst⟩
  · rw [hsucc]
    simp only [ne_eq, not_true_eq_false, if_false]
    rw [if_pos htaper]
    exact ⟨rfl, Or.inr rfl⟩
  · rw [hiw]
    simp only [ne_eq, reduceCtorEq, not_false_eq_true, if_true]
    exact ⟨hiw, Or.inl hst⟩

/-- Witness for the amended C2 at the concrete tapered frustum. -/
theorem taperedFrustum_rejected_invalidWindow_witness :
    Vec3.dist frustumC2.leftBottomRear frustumC2.rightBottomRear * (1 + 1 / 1000000)
       < Vec3.dist frustumC2.leftBottomFront frustumC2.rightBottomFront ∧
    (setupFromFrustum3d stateC2 frustumC2).2 = ViewStatus.InvalidWindow := by
  have ht : Vec3.dist frustumC2.leftBottomRear frustumC2.rightBottomRear * (1 + 1 / 1000000)
       < Vec3.dist frustumC2.leftBottomFront frustumC2.rightBottomFront := by
    rw [distC2_back, distC2_front]; norm_num
  exact ⟨ht, (taperedFrustum_rejected_invalidWindow stateC2 frustumC2 ht).1⟩

/-! ## Claim C7 -/

theorem lookAtFrame_concrete :
    lookAtFrame sampleSpatialState ⟨0, 0, 100⟩ ⟨0, 0, 0⟩ ⟨0, 1, 0⟩
      = .ok ⟨⟨1, 0, 0⟩, ⟨0, 1, 0⟩, ⟨0, 0, 1⟩, 100⟩ := by
  norm_num [lookAtFrame, sampleSpatialState, Vec3.magnitude, Vec3.normSq,
    Vec3.sub, Vec3.smul, Vec3.cross, ViewState3.minimumFrontDistance,
    Constant.oneCentimeter, smallMetricDistance, Real.sqrt_one,
    sqrt_ten_thousand]

theorem lookAtDists_concrete :
    lookAtDists sampleSpatialState 100 none none none
      = ⟨0.5, 100.5, ⟨10, 10, 100⟩⟩ := by
  norm_num [lookAtDists, sampleSpatialState, ViewState3.minimumFrontDistance,
    ViewState3.getBackDistance, ViewState3.getFrontDistance, Matrix3.one,
    Matrix3.mulVec, Vec3.dot, Vec3.sub, Constant.oneCentimeter,
    Constant.oneMeter, Constant.oneMillimeter]

/-- C7: for a `ViewState3d` with extents `(10, 10, 1)` and default front/back
distances, `lookAt(eye = (0,0,100), target = (0,0,0), up = (0,1,0))` returns
`Success`; afterwards the focus distance is `100`, the camera is on, and the
lens angle equals `2 * atan(5/100)` radians as computed by `calcLensAngle`. -/
theorem lookAt_concrete_scenario :
    (lookAt sampleSpatialState ⟨0, 0, 100⟩ ⟨0, 0, 0⟩ ⟨0, 1, 0⟩ none none none).2
        = ViewStatus.Success ∧
    (lookAt sampleSpatialState ⟨0, 0, 100⟩ ⟨0, 0, 0⟩ ⟨0, 1, 0⟩ none none none).1.camera.focusDist
        = 100 ∧
    (lookAt sampleSpatialState ⟨0, 0, 100⟩ ⟨0, 0, 0⟩ ⟨0, 1, 0⟩ none none none).1.cameraOn
        = true ∧
    (lookAt sampleSpatialState ⟨0, 0, 100⟩ ⟨0, 0, 0⟩ ⟨0, 1, 0⟩ none none none).1.camera.lens
        = 2 * Real.arctan (5 / 100) := by
  simp only [lookAt, lookAtFrame_concrete, lookAtDists_concrete]
  norm_num [lookAtCommit, validateViewDelta, limitWindowSize,
    calculateMaxDepth, sampleSpatialState, spatialExtentLimits,
    Constant.oneMillimeter, Constant.diameterOfEarth, Constant.oneKilometer,
    Vec3.smul, Vec3.add, Vec3.dot, ViewState3.calcLensAngle,
    ViewState3.enableCamera, Camera.setLensAngle, Camera.setFocusDistance,
    Camera.setEyePoint, atan2]

/-! ## Claim C8 -/

theorem validateLens_sample :
    ({ lens := Real.pi / 2, focusDist := 0, eye := ⟨0, 0, 0⟩ } : Camera).validateLens
      = { lens := Real.pi / 2, focusDist := 0, eye := ⟨0, 0, 0⟩ } := by
  have hv : Camera.isValidLensAngle (Real.pi / 2) := by
    constructor
    · nlinarith [Real.pi_gt_three]
    · nlinarith [Real.pi_pos]
  simp only [Camera.validateLens]
  rw [if_pos hv]

theorem tan_pi_div_two_div_two : Real.tan (Real.pi / 2 / 2) = 1 := by
  rw [show Real.pi / 2 / 2 = Real.pi / 4 by ring, Real.tan_pi_div_four]

/-- C8: with the camera off, fitting the view-aligned volume
`low = (0,0,0), high = (100,50,10)` with aspect `2.0` and no margin yields
extents `x = 100 * 1.04 = 104` and `y = 52`, and the view stays centered on
the volume's original center `(50, 25, 5)`. -/
theorem lookAtViewAlignedVolume_concrete_fit :
    (lookAtViewAlignedVolume sampleSpatialState ⟨⟨0, 0, 0⟩, ⟨100, 50, 10⟩⟩
        (some 2) none).extents.x = 104 ∧
    (lookAtViewAlignedVolume sampleSpatialState ⟨⟨0, 0, 0⟩, ⟨100, 50, 10⟩⟩
        (some 2) none).extents.y = 52 ∧
    ViewState3.getCenter (lookAtViewAlignedVolume sampleSpatialState
        ⟨⟨0, 0, 0⟩, ⟨100, 50, 10⟩⟩ (some 2) none) = ⟨50, 25, 5⟩ := by
  norm_num [lookAtViewAlignedVolume, Range3.isNull, sampleSpatialState,
    validateViewDelta, limitWindowSize, spatialExtentLimits,
    Constant.oneMillimeter, Constant.diameterOfEarth, Constant.oneKilometer,
    adjustAspectRatio, validateLens_sample, tan_pi_div_two_div_two,
    centerEyePoint, verifyFocusPlane, ViewState3.getBackDistance,
    ViewState3.getCenter, Camera.setFocusDistance, Camera.setEyePoint,
    Matrix3.one, Matrix3.mulVec, Matrix3.mulTransposeVec, Matrix3.transpose,
    Vec3.dot, Vec3.sub, Vec3.add, Vec3.smul, Vec3.plusScaled,
    Vec3.magnitudeXY]

/-! ## Auxiliary algebra for the round-trip and rigidity claims -/

namespace Vec3

theorem smul_smul_eq (a b : ℝ) (v : Vec3) : smul a (smul b v) = smul (a * b) v := by
  unfold smul; ext <;> ring

theorem one_smul_eq (v : Vec3) : smul 1 v = v := by
  unfold smul; ext <;> ring

theorem cross_smul_smul (a b : ℝ) (u v : Vec3) :
    cross (smul a u) (smul b v) = smul (a * b) (cross u v) := by
  unfold cross smul; ext <;> ring

theorem dot_smul_right (c : ℝ) (u v : Vec3) : dot u (smul c v) = c * dot u v := by
  unfold dot smul; ring

theorem dot_add_right (u a b : Vec3) : dot u (add a b) = dot u a + dot u b := by
  unfold dot add; ring

theorem magnitude_eq_one_of_dot {v : Vec3} (h : dot v v = 1) : v.magnitude = 1 := by
  unfold magnitude
  rw [normSq_eq_dot, h, Real.sqrt_one]

end Vec3

namespace Matrix3

theorem ofColumns_rows (M : Matrix3) :
    ofColumns M.r0 M.r1 M.r2 = M.transpose := rfl

theorem transpose_transpose (M : Matrix3) : M.transpose.transpose = M := rfl

theorem col0_transpose (M : Matrix3) : M.transpose.col0 = M.r0 := rfl

theorem col1_transpose (M : Matrix3) : M.transpose.col1 = M.r1 := rfl

theorem col2_transpose (M : Matrix3) : M.transpose.col2 = M.r2 := rfl

end Matrix3

/-- On a positively scaled pair of rows of a rigid matrix, the rigid-basis
construction recovers exactly the columns `r0, r1, r2`. -/
theorem createRigid_of_rigid_scaled (M : Matrix3) (hM : M.isRigid) (a b : ℝ)
    (ha : 0 < a) (hb : 0 < b) :
    createRigidFromColumnsXYZ (Vec3.smul a M.r0) (Vec3.smul b M.r1)
      = some (Matrix3.ofColumns M.r0 M.r1 M.r2) := by
  have hc01 := hM.cross_r0_r1
  have hc20 := hM.cross_r2_r0
  have hm0 : M.r0.magnitude = 1 := Vec3.magnitude_eq_one_of_dot hM.1
  have hm2 : M.r2.magnitude = 1 := Vec3.magnitude_eq_one_of_dot hM.2.2.1
  have hcr : Vec3.cross (Vec3.smul a M.r0) (Vec3.smul b M.r1)
      = Vec3.smul (a * b) M.r2 := by
    rw [Vec3.cross_smul_smul, hc01]
  have hmagA : (Vec3.smul a M.r0).magnitude = a := by
    rw [Vec3.magnitude_smul, abs_of_pos ha, hm0, mul_one]
  have hmagC : (Vec3.smul (a * b) M.r2).magnitude = a * b := by
    rw [Vec3.magnitude_smul, abs_of_pos (mul_pos ha hb), hm2, mul_one]
  simp only [createRigidFromColumnsXYZ, hcr, hmagA, hmagC]
  rw [if_neg (by
    push_neg
    exact ⟨ne_of_gt ha, ne_of_gt (mul_pos ha hb)⟩)]
  rw [Vec3.smul_smul_eq, Vec3.smul_smul_eq,
    one_div_mul_cancel (ne_of_gt ha),
    one_div_mul_cancel (ne_of_gt (mul_pos ha hb)),
    Vec3.one_smul_eq, Vec3.one_smul_eq, hc20]

/-- A normalized nonzero vector has unit dot square. -/
theorem Vec3.dot_normalize_self (v : Vec3) (h : v.magnitude ≠ 0) :
    Vec3.dot (Vec3.smul (1 / v.magnitude) v) (Vec3.smul (1 / v.magnitude) v) = 1 := by
  have hs := v.magnitude_sq
  unfold Vec3.dot Vec3.smul
  unfold Vec3.normSq at hs
  field_simp
  linear_combination (-1 : ℝ) * hs

theorem Vec3.dot_comm (u v : Vec3) : Vec3.dot u v = Vec3.dot v u := by
  unfold Vec3.dot; ring

theorem Vec3.dot_smul_smul (c d : ℝ) (u v : Vec3) :
    Vec3.dot (Vec3.smul c u) (Vec3.smul d v) = c * d * Vec3.dot u v := by
  unfold Vec3.dot Vec3.smul; ring

/-- The rigid-basis construction always yields a rigid matrix. -/
theorem createRigid_isRigid (a b : Vec3) (M : Matrix3)
    (h : createRigidFromColumnsXYZ a b = some M) : M.isRigid := by
  simp only [createRigidFromColumnsXYZ] at h
  by_cases hz : a.magnitude = 0 ∨ (Vec3.cross a b).magnitude = 0
  · rw [if_pos hz] at h
    exact absurd h (by simp)
  rw [if_neg hz] at h
  push_neg at hz
  obtain ⟨hza, hzc⟩ := hz
  set u0 := Vec3.smul (1 / a.magnitude) a with hu0
  set u2 := Vec3.smul (1 / (Vec3.cross a b).magnitude) (Vec3.cross a b) with hu2
  have hMval : Matrix3.ofColumns u0 (Vec3.cross u2 u0) u2 = M := Option.some.inj h
  have hd0 : Vec3.dot u0 u0 = 1 := by
    rw [hu0]; exact Vec3.dot_normalize_self a hza
  have hd2 : Vec3.dot u2 u2 = 1 := by
    rw [hu2]; exact Vec3.dot_normalize_self (Vec3.cross a b) hzc
  have hd02 : Vec3.dot u0 u2 = 0 := by
    rw [hu0, hu2, Vec3.dot_smul_smul, Vec3.dot_cross_left, mul_zero]
  have hd20 : Vec3.dot u2 u0 = 0 := by rw [Vec3.dot_comm]; exact hd02
  set P : Matrix3 := ⟨u0, Vec3.cross u2 u0, u2⟩ with hP
  have hPrig : P.isRigid := by
    refine ⟨hd0, ?_, hd2, Vec3.dot_cross_right u2 u0, hd02, ?_, ?_⟩
    · show Vec3.dot (Vec3.cross u2 u0) (Vec3.cross u2 u0) = 1
      rw [← Vec3.normSq_eq_dot, Vec3.normSq_cross, Vec3.normSq_eq_dot,
        Vec3.normSq_eq_dot, hd2, hd0, hd20]
      ring
    · show Vec3.dot (Vec3.cross u2 u0) u2 = 0
      rw [Vec3.dot_comm]
      exact Vec3.dot_cross_left u2 u0
    · show Vec3.dot u0 (Vec3.cross (Vec3.cross u2 u0) u2) = 1
      rw [Vec3.cross_cross_left u2 u0, hd2, hd20]
      have hsimp : Vec3.sub (Vec3.smul 1 u0) (Vec3.smul 0 u2) = u0 := by
        unfold Vec3.sub Vec3.smul; ext <;> ring
      rw [hsimp]
      exact hd0
  have hMP : M = P.transpose := by
    rw [← hMval, hP]
    rfl
  rw [hMP]
  exact hPrig.transpose

/-! ## Claim C1 -/

theorem computeWorldToNpc_cameraOff (ns : ℝ) (s : ViewState3)
    (hcam : s.cameraOn = false) :
    computeWorldToNpc ns s =
      { origin := s.origin,
        xExtent := Vec3.smul s.extents.x s.rotation.r0,
        yExtent := Vec3.smul s.extents.y s.rotation.r1,
        zExtent := Vec3.smul s.extents.z s.rotation.r2,
        frustFraction := 1 } := by
  simp only [computeWorldToNpc, hcam]
  norm_num

/-- The frustum of an orthographic view in closed form: the box spanned at
the origin by the scaled rotation rows. -/
def orthoFrustum (s : ViewState3) : Frustum :=
  let o := s.origin
  let X := Vec3.smul s.extents.x s.rotation.r0
  let Y := Vec3.smul s.extents.y s.rotation.r1
  let Z := Vec3.smul s.extents.z s.rotation.r2
  ⟨o, Vec3.add o X, Vec3.add o Y, Vec3.add o (Vec3.add X Y),
   Vec3.add o Z, Vec3.add o (Vec3.add X Z), Vec3.add o (Vec3.add Y Z),
   Vec3.add o (Vec3.add X (Vec3.add Y Z))⟩

theorem calculateFrustum_cameraOff (ns : ℝ) (s : ViewState3)
    (hcam : s.cameraOn = false)
    (hdetbox : (Matrix3.ofColumns (Vec3.smul s.extents.x s.rotation.r0)
      (Vec3.smul s.extents.y s.rotation.r1)
      (Vec3.smul s.extents.z s.rotation.r2)).det ≠ 0) :
    calculateFrustum ns s = some (orthoFrustum s) := by
  simp only [calculateFrustum, computeWorldToNpc_cameraOff ns s hcam]
  rw [if_neg hdetbox]
  congr 1
  simp only [orthoFrustum, frustumCorner, Frustum.mk.injEq]
  refine ⟨?_, ?_, ?_, ?_, ?_, ?_, ?_, ?_⟩ <;>
    (ext <;> (simp only [Vec3.add, Vec3.smul]; ring))

theorem setupFromFrustumBase_orthoFrustum (s : ViewState3)
    (hrig : s.rotation.isRigid) (hmin : 0 < s.extentLimits.min)
    (hx1 : s.extentLimits.min ≤ s.extents.x) (hx2 : s.extents.x ≤ s.extentLimits.max)
    (hy1 : s.extentLimits.min ≤ s.extents.y) (hy2 : s.extents.y ≤ s.extentLimits.max)
    (hz1 : s.extentLimits.min ≤ s.extents.z) (hz2 : s.extents.z ≤ s.extentLimits.max) :
    setupFromFrustumBase s (orthoFrustum s) = (s, ViewStatus.Success) := by
  have h00 := hrig.1
  have h11 := hrig.2.1
  have h22 := hrig.2.2.1
  have h01 := hrig.2.2.2.1
  have h02 := hrig.2.2.2.2.1
  have h12 := hrig.2.2.2.2.2.1
  have hc01 := hrig.cross_r0_r1
  have dxpos : 0 < s.extents.x := lt_of_lt_of_le hmin hx1
  have dypos : 0 < s.extents.y := lt_of_lt_of_le hmin hy1
  have dzpos : 0 < s.extents.z := lt_of_lt_of_le hmin hz1
  have hXe : Vec3.sub (orthoFrustum s).rightBottomRear (orthoFrustum s).leftBottomRear
      = Vec3.smul s.extents.x s.rotation.r0 := by
    simp only [orthoFrustum]
    ext <;> (simp only [Vec3.sub, Vec3.add, Vec3.smul]; ring)
  have hYe : Vec3.sub (orthoFrustum s).leftTopRear (orthoFrustum s).leftBottomRear
      = Vec3.smul s.extents.y s.rotation.r1 := by
    simp only [orthoFrustum]
    ext <;> (simp only [Vec3.sub, Vec3.add, Vec3.smul]; ring)
  have hZe : Vec3.sub (orthoFrustum s).leftBottomFront (orthoFrustum s).leftBottomRear
      = Vec3.smul s.extents.z s.rotation.r2 := by
    simp only [orthoFrustum]
    ext <;> (simp only [Vec3.sub, Vec3.add, Vec3.smul]; ring)
  have hCen : (orthoFrustum s).getCenter
      = Vec3.add s.origin (Vec3.smul (1 / 2)
          (Vec3.add (Vec3.add (Vec3.smul s.extents.x s.rotation.r0)
            (Vec3.smul s.extents.y s.rotation.r1))
            (Vec3.smul s.extents.z s.rotation.r2))) := by
    simp only [orthoFrustum, Frustum.getCenter]
    ext <;> (simp only [Vec3.add, Vec3.smul]; ring)
  have htp : 0 ≤ Vec3.dot
      (Vec3.cross (Vec3.sub (orthoFrustum s).rightBottomRear (orthoFrustum s).leftBottomRear)
        (Vec3.sub (orthoFrustum s).leftTopRear (orthoFrustum s).leftBottomRear))
      (Vec3.sub (orthoFrustum s).leftBottomFront (orthoFrustum s).leftBottomRear) := by
    rw [hXe, hYe, hZe, Vec3.cross_smul_smul, hc01, Vec3.dot_smul_smul, h22]
    nlinarith [mul_pos (mul_pos dxpos dypos) dzpos]
  have hfix : (orthoFrustum s).fixPointOrder = orthoFrustum s := by
    simp only [Frustum.fixPointOrder]
    rw [if_pos htp]
  have hzS : Vec3.dot s.rotation.r2 (Vec3.smul s.extents.z s.rotation.r2)
      = s.extents.z := by
    rw [Vec3.dot_smul_right, h22, mul_one]
  have hdX : Vec3.dot s.rotation.r0 (Vec3.smul s.extents.x s.rotation.r0)
      = s.extents.x := by
    rw [Vec3.dot_smul_right, h00, mul_one]
  have hdY : Vec3.dot s.rotation.r1 (Vec3.smul s.extents.y s.rotation.r1)
      = s.extents.y := by
    rw [Vec3.dot_smul_right, h11, mul_one]
  have hOrg : Vec3.plusScaled
      (Vec3.add s.origin (Vec3.smul (1 / 2)
        (Vec3.add (Vec3.add (Vec3.smul s.extents.x s.rotation.r0)
          (Vec3.smul s.extents.y s.rotation.r1))
          (Vec3.smul s.extents.z s.rotation.r2))))
      (Vec3.add (Vec3.add (Vec3.smul s.extents.x s.rotation.r0)
        (Vec3.smul s.extents.y s.rotation.r1))
        (Vec3.smul s.extents.z s.rotation.r2)) (-0.5) = s.origin := by
    unfold Vec3.plusScaled Vec3.add Vec3.smul
    ext <;> (simp only []; ring)
  have hDelta : s.rotation.mulVec
      (Vec3.add (Vec3.add (Vec3.smul s.extents.x s.rotation.r0)
        (Vec3.smul s.extents.y s.rotation.r1))
        (Vec3.smul s.extents.z s.rotation.r2))
      = ⟨s.extents.x, s.extents.y, s.extents.z⟩ := by
    have g00 := h00
    have g01 := h01
    have g02 := h02
    have g11 := h11
    have g12 := h12
    have g22 := h22
    unfold Vec3.dot at g00 g01 g02 g11 g12 g22
    unfold Matrix3.mulVec Vec3.dot Vec3.add Vec3.smul
    ext
    · simp only []
      linear_combination s.extents.x * g00 + s.extents.y * g01 + s.extents.z * g02
    · simp only []
      linear_combination s.extents.x * g01 + s.extents.y * g11 + s.extents.z * g12
    · simp only []
      linear_combination s.extents.x * g02 + s.extents.y * g12 + s.extents.z * g22
  have hvd : validateViewDelta s.extentLimits ⟨s.extents.x, s.extents.y, s.extents.z⟩ false
      = (⟨s.extents.x, s.extents.y, s.extents.z⟩, ViewStatus.Success) := by
    simp only [validateViewDelta, limitWindowSize]
    rw [if_neg (not_lt.mpr hx1), if_neg (not_lt.mpr hx2), if_neg (not_lt.mpr hy1),
      if_neg (not_lt.mpr hy2), if_neg (not_lt.mpr hz1), if_neg (not_lt.mpr hz2)]
  simp only [setupFromFrustumBase, hfix]
  rw [hXe, hYe, hZe]
  rw [createRigid_of_rigid_scaled s.rotation hrig _ _ dxpos dypos]
  simp only [adjustToStandardRotation, Matrix3.ofColumns_rows,
    Matrix3.col0_transpose, Matrix3.col1_transpose, Matrix3.col2_transpose,
    hrig.transpose.inverse_eq_transpose, Matrix3.transpose_transpose]
  rw [hzS, hdX, hdY]
  rw [if_neg (not_lt.mpr (le_of_lt dzpos))]
  rw [hCen, hOrg, hDelta, hvd]

/-- C1: for every `ViewState3` whose camera is off and whose parameters are
valid (rigid rotation, extents within positive extent limits),
`setupFromFrustum` applied to the frustum returned by `calculateFrustum()`
returns `Success` and reproduces the original origin, extents and rotation
exactly — in exact real arithmetic the round trip is the identity, a
fortiori within `1e-9` relative tolerance. -/
theorem roundtrip_setupFromFrustum_calculateFrustum (ns : ℝ) (s : ViewState3)
    (hcam : s.cameraOn = false) (hrig : s.rotation.isRigid)
    (hmin : 0 < s.extentLimits.min)
    (hx1 : s.extentLimits.min ≤ s.extents.x) (hx2 : s.extents.x ≤ s.extentLimits.max)
    (hy1 : s.extentLimits.min ≤ s.extents.y) (hy2 : s.extents.y ≤ s.extentLimits.max)
    (hz1 : s.extentLimits.min ≤ s.extents.z) (hz2 : s.extents.z ≤ s.extentLimits.max) :
    ∃ F, calculateFrustum ns s = some F ∧
      setupFromFrustum3d s F = (s, ViewStatus.Success) := by
  have h00 := hrig.1
  have hdet := hrig.det_eq_one
  have dxpos : 0 < s.extents.x := lt_of_lt_of_le hmin hx1
  have dypos : 0 < s.extents.y := lt_of_lt_of_le hmin hy1
  have dzpos : 0 < s.extents.z := lt_of_lt_of_le hmin hz1
  have hm0 : s.rotation.r0.magnitude = 1 := Vec3.magnitude_eq_one_of_dot h00
  have hdetbox : (Matrix3.ofColumns (Vec3.smul s.extents.x s.rotation.r0)
      (Vec3.smul s.extents.y s.rotation.r1)
      (Vec3.smul s.extents.z s.rotation.r2)).det ≠ 0 := by
    have hh : (Matrix3.ofColumns (Vec3.smul s.extents.x s.rotation.r0)
        (Vec3.smul s.extents.y s.rotation.r1)
        (Vec3.smul s.extents.z s.rotation.r2)).det
        = s.extents.x * s.extents.y * s.extents.z * s.rotation.det := by
      unfold Matrix3.ofColumns Matrix3.det Vec3.dot Vec3.cross Vec3.smul
      ring
    rw [hh, hdet, mul_one]
    exact ne_of_gt (mul_pos (mul_pos dxpos dypos) dzpos)
  refine ⟨orthoFrustum s, calculateFrustum_cameraOff ns s hcam hdetbox, ?_⟩
  have hbase := setupFromFrustumBase_orthoFrustum s hrig hmin hx1 hx2 hy1 hy2 hz1 hz2
  have hXe : Vec3.sub (orthoFrustum s).rightBottomRear (orthoFrustum s).leftBottomRear
      = Vec3.smul s.extents.x s.rotation.r0 := by
    simp only [orthoFrustum]
    ext <;> (simp only [Vec3.sub, Vec3.add, Vec3.smul]; ring)
  have hXf : Vec3.sub (orthoFrustum s).rightBottomFront (orthoFrustum s).leftBottomFront
      = Vec3.smul s.extents.x s.rotation.r0 := by
    simp only [orthoFrustum]
    ext <;> (simp only [Vec3.sub, Vec3.add, Vec3.smul]; ring)
  have hxB : Vec3.dist (orthoFrustum s).leftBottomRear (orthoFrustum s).rightBottomRear
      = s.extents.x := by
    unfold Vec3.dist
    rw [hXe, Vec3.magnitude_smul, abs_of_pos dxpos, hm0, mul_one]
  have hxF : Vec3.dist (orthoFrustum s).leftBottomFront (orthoFrustum s).rightBottomFront
      = s.extents.x := by
    unfold Vec3.dist
    rw [hXf, Vec3.magnitude_smul, abs_of_pos dxpos, hm0, mul_one]
  have hoff : ViewState3.turnCameraOff s = s := by
    simp only [ViewState3.turnCameraOff]
    rw [← hcam]
  simp only [setupFromFrustum3d, hbase, hoff]
  simp only [ne_eq, not_true_eq_false, if_false]
  rw [hxB, hxF]
  rw [if_neg (by nlinarith [dxpos] : ¬s.extents.x > s.extents.x * (1 + 1 / 1000000))]
  rw [if_pos (by rw [div_self (ne_of_gt dxpos)]; norm_num :
    s.extents.x / s.extents.x ≥ 1 - 1 / 1000000)]

/-- Witness for C1 at a concrete valid orthographic state. -/
theorem roundtrip_setupFromFrustum_calculateFrustum_witness :
    sampleSpatialState.cameraOn = false ∧
    (∃ F, calculateFrustum 1 sampleSpatialState = some F ∧
      setupFromFrustum3d sampleSpatialState F
        = (sampleSpatialState, ViewStatus.Success)) := by
  refine ⟨rfl, roundtrip_setupFromFrustum_calculateFrustum 1 sampleSpatialState rfl
    ?_ ?_ ?_ ?_ ?_ ?_ ?_ ?_⟩
  · show Matrix3.isRigid Matrix3.one
    exact Matrix3.isRigid_one
  · norm_num [sampleSpatialState, spatialExtentLimits, Constant.oneMillimeter]
  · norm_num [sampleSpatialState, spatialExtentLimits, Constant.oneMillimeter]
  · norm_num [sampleSpatialState, spatialExtentLimits, Constant.diameterOfEarth,
      Constant.oneKilometer]
  · norm_num [sampleSpatialState, spatialExtentLimits, Constant.oneMillimeter]
  · norm_num [sampleSpatialState, spatialExtentLimits, Constant.diameterOfEarth,
      Constant.oneKilometer]
  · norm_num [sampleSpatialState, spatialExtentLimits, Constant.oneMillimeter]
  · norm_num [sampleSpatialState, spatialExtentLimits, Constant.diameterOfEarth,
      Constant.oneKilometer]

/-! ## Claim C3 -/

theorem Vec3.dot_smul_left (c : ℝ) (u v : Vec3) :
    Vec3.dot (Vec3.smul c u) v = c * Vec3.dot u v := by
  unfold Vec3.dot Vec3.smul; ring

theorem minimumFrontDistance_pos (s : ViewState3) : 0 < s.minimumFrontDistance :=
  lt_of_lt_of_le (by norm_num [Constant.oneCentimeter]) (le_max_left _ _)

/-- The frame produced by a successful `lookAtFrame` is a rigid rotation. -/
theorem lookAtFrame_rigid (s : ViewState3) (e t u : Vec3) (fr : LookAtFrame)
    (h : lookAtFrame s e t u = .ok fr) :
    Matrix3.isRigid ⟨fr.xVec, fr.yVec, fr.zVec⟩ := by
  simp only [lookAtFrame] at h
  split_ifs at h with h1 h2 h3 h4
  -- split_ifs discharges the error branches; the success branch remains

  have hfr := Except.ok.inj h
  push_neg at h2 h3 h4
  set z0 := Vec3.sub e t with hz0
  have hfpos : 0 < z0.magnitude := lt_trans (minimumFrontDistance_pos s) h2
  have hfne : z0.magnitude ≠ 0 := ne_of_gt hfpos
  set zVec := Vec3.smul (1 / z0.magnitude) z0 with hzv
  set yVec0 := Vec3.smul (1 / u.magnitude) u with hyv0
  set cx := Vec3.cross yVec0 zVec with hcx
  have hcxne : cx.magnitude ≠ 0 := by
    intro h0
    rw [h0] at h3
    norm_num [smallMetricDistance] at h3
  set xVec := Vec3.smul (1 / cx.magnitude) cx with hxv
  set cy := Vec3.cross zVec xVec with hcy
  have hcyne : cy.magnitude ≠ 0 := by
    intro h0
    rw [h0] at h4
    norm_num [smallMetricDistance] at h4
  have hx : fr.xVec = xVec := by rw [← hfr]
  have hy : fr.yVec = Vec3.smul (1 / cy.magnitude) cy := by rw [← hfr]
  have hz : fr.zVec = zVec := by rw [← hfr]
  have dzz : Vec3.dot zVec zVec = 1 := by
    rw [hzv]; exact Vec3.dot_normalize_self z0 hfne
  have dxx : Vec3.dot xVec xVec = 1 := by
    rw [hxv]; exact Vec3.dot_normalize_self cx hcxne
  have dxz : Vec3.dot xVec zVec = 0 := by
    rw [hxv, Vec3.dot_smul_left, hcx, Vec3.dot_comm, Vec3.dot_cross_right, mul_zero]
  have dzx : Vec3.dot zVec xVec = 0 := by rw [Vec3.dot_comm]; exact dxz
  have hmagcy : cy.magnitude = 1 := by
    have hns : cy.normSq = 1 := by
      rw [hcy, Vec3.normSq_cross, Vec3.normSq_eq_dot, Vec3.normSq_eq_dot,
        dzz, dxx, dzx]
      ring
    unfold Vec3.magnitude
    rw [hns, Real.sqrt_one]
  have hyeq : Vec3.smul (1 / cy.magnitude) cy = cy := by
    rw [hmagcy]
    norm_num
    exact Vec3.one_smul_eq cy
  have dyy : Vec3.dot cy cy = 1 := by
    rw [← Vec3.normSq_eq_dot]
    rw [hcy, Vec3.normSq_cross, Vec3.normSq_eq_dot, Vec3.normSq_eq_dot,
      dzz, dxx, dzx]
    ring
  have dxy : Vec3.dot xVec cy = 0 := by
    rw [hcy]; exact Vec3.dot_cross_right zVec xVec
  have dyz : Vec3.dot cy zVec = 0 := by
    rw [Vec3.dot_comm, hcy]; exact Vec3.dot_cross_left zVec xVec
  have hdet : Vec3.dot xVec (Vec3.cross cy zVec) = 1 := by
    have hcyz : Vec3.cross cy zVec = xVec := by
      rw [hcy, Vec3.cross_cross_left, dzz, dzx]
      unfold Vec3.sub Vec3.smul
      ext <;> (simp only []; ring)
    rw [hcyz]; exact dxx
  refine ⟨?_, ?_, ?_, ?_, ?_, ?_, ?_⟩ <;>
    simp only [hx, hy, hz, hyeq, Matrix3.det]
  · exact dxx
  · exact dyy
  · exact dzz
  · exact dxy
  · exact dxz
  · exact dyz
  · exact hdet

/-- `lookAt` preserves rigidity of the stored rotation. -/
theorem lookAt_preserves_rigid (s : ViewState3) (e t u : Vec3)
    (ne : Option (ℝ × ℝ)) (fd bd : Option ℝ) (hs : s.rotation.isRigid) :
    (lookAt s e t u ne fd bd).1.rotation.isRigid := by
  unfold lookAt
  cases hfr : lookAtFrame s e t u with
  | error st => exact hs
  | ok fr =>
    have hrig := lookAtFrame_rigid s e t u fr hfr
    simp only [lookAtCommit]
    split_ifs
    · exact hs
    · exact hs
    · simp only [ViewState3.enableCamera]
      split_ifs <;> exact hrig

/-- The base frustum solver preserves rigidity of the stored rotation. -/
theorem setupFromFrustumBase_preserves_rigid (s : ViewState3) (f : Frustum)
    (hs : s.rotation.isRigid) :
    (setupFromFrustumBase s f).1.rotation.isRigid := by
  simp only [setupFromFrustumBase]
  cases hcr : createRigidFromColumnsXYZ
      (Vec3.sub f.fixPointOrder.rightBottomRear f.fixPointOrder.leftBottomRear)
      (Vec3.sub f.fixPointOrder.leftTopRear f.fixPointOrder.leftBottomRear) with
  | none => exact hs
  | some M =>
    have hMrig : M.isRigid := createRigid_isRigid _ _ _ hcr
    simp only [adjustToStandardRotation]
    cases hinv : M.inverse with
    | none => exact hs
    | some R =>
      have hR : R = M.transpose := by
        have hh := hMrig.inverse_eq_transpose
        rw [hinv] at hh
        exact Option.some.inj hh
      split_ifs
      · exact hs
      · rw [hR]
        exact hMrig.transpose

/-- The 3d frustum solver preserves rigidity of the stored rotation. -/
theorem setupFromFrustum3d_preserves_rigid (s : ViewState3) (f : Frustum)
    (hs : s.rotation.isRigid) :
    (setupFromFrustum3d s f).1.rotation.isRigid := by
  have hbase := setupFromFrustumBase_preserves_rigid s f hs
  simp only [setupFromFrustum3d]
  split_ifs
  · exact hbase
  · exact hbase
  · exact hbase
  · simp only [ViewState3.enableCamera]
    split_ifs <;> exact hbase

/-- One mutation of the view state, as listed in the rigidity claim:
`setRotation`, `lookAt`, or `setupFromFrustum`. -/
inductive ViewOp where
  | setRot (m : Matrix3)
  | look (eye target up : Vec3) (newExtents : Option (ℝ × ℝ)) (fd bd : Option ℝ)
  | fromFrustum (f : Frustum)

/-- Apply one operation to the state (`ViewState3d.setRotation` src 1052,
`lookAt` src 1097-1159, `setupFromFrustum` src 993-1037), keeping the
resulting state and discarding the status. -/
def applyOp (s : ViewState3) (op : ViewOp) : ViewState3 :=
  match op with
  | .setRot m => { s with rotation := m }
  | .look e t u ne fd bd => (lookAt s e t u ne fd bd).1
  | .fromFrustum f => (setupFromFrustum3d s f).1

/-- The documented precondition of each operation: `setRotation` requires an
ortho-normal input matrix (src line 317); the others have none. -/
def opValid : ViewOp → Prop
  | .setRot m => m.isRigid
  | .look _ _ _ _ _ _ => True
  | .fromFrustum _ => True

/-- Apply a sequence of operations. -/
def applyOps (s : ViewState3) (ops : List ViewOp) : ViewState3 :=
  ops.foldl applyOp s

theorem applyOps_rigid (ops : List ViewOp) (s : ViewState3)
    (hs : s.rotation.isRigid) (hops : ∀ op ∈ ops, opValid op) :
    (applyOps s ops).rotation.isRigid := by
  induction ops generalizing s with
  | nil => exact hs
  | cons op rest ih =>
    simp only [applyOps, List.foldl_cons]
    have hstep : (applyOp s op).rotation.isRigid := by
      cases op with
      | setRot m => exact hops (.setRot m) (List.mem_cons_self _ _)
      | look e t u ne fd bd => exact lookAt_preserves_rigid s e t u ne fd bd hs
      | fromFrustum f => exact setupFromFrustum3d_preserves_rigid s f hs
    exact ih (applyOp s op) hstep (fun o ho => hops o (List.mem_cons_of_mem _ ho))

/-- C3: after any sequence of `setRotation` (with orthonormal input, per its
documented precondition), `lookAt`, and `setupFromFrustum` calls, the stored
rotation matrix is orthonormal — absolute determinant `1`, rows mutually
orthogonal, rows of unit length — exactly, hence within `1e-9`. -/
theorem rigidity_invariant_ops (s : ViewState3) (ops : List ViewOp)
    (hs : s.rotation.isRigid) (hops : ∀ op ∈ ops, opValid op) :
    |(applyOps s ops).rotation.det| = 1 ∧
    Vec3.dot (applyOps s ops).rotation.r0 (applyOps s ops).rotation.r0 = 1 ∧
    Vec3.dot (applyOps s ops).rotation.r1 (applyOps s ops).rotation.r1 = 1 ∧
    Vec3.dot (applyOps s ops).rotation.r2 (applyOps s ops).rotation.r2 = 1 ∧
    Vec3.dot (applyOps s ops).rotation.r0 (applyOps s ops).rotation.r1 = 0 ∧
    Vec3.dot (applyOps s ops).rotation.r0 (applyOps s ops).rotation.r2 = 0 ∧
    Vec3.dot (applyOps s ops).rotation.r1 (applyOps s ops).rotation.r2 = 0 := by
  obtain ⟨h00, h11, h22, h01, h02, h12, hdet⟩ := applyOps_rigid ops s hs hops
  exact ⟨by rw [hdet]; norm_num, h00, h11, h22, h01, h02, h12⟩

/-- Witness for C3: a two-operation sequence on a concrete state. -/
theorem rigidity_invariant_ops_witness :
    (∀ op ∈ [ViewOp.setRot Matrix3.one,
             ViewOp.look ⟨0, 0, 100⟩ ⟨0, 0, 0⟩ ⟨0, 1, 0⟩ none none none],
       opValid op) ∧
    |(applyOps sampleSpatialState
        [ViewOp.setRot Matrix3.one,
         ViewOp.look ⟨0, 0, 100⟩ ⟨0, 0, 0⟩ ⟨0, 1, 0⟩ none none none]).rotation.det| = 1 := by
  have hops : ∀ op ∈ [ViewOp.setRot Matrix3.one,
      ViewOp.look ⟨0, 0, 100⟩ ⟨0, 0, 0⟩ ⟨0, 1, 0⟩ none none none], opValid op := by
    intro op hop
    rcases List.mem_cons.mp hop with h | h
    · subst h
      exact Matrix3.isRigid_one
    · rcases List.mem_cons.mp h with h2 | h2
      · subst h2
        trivial
      · exact absurd h2 (List.not_mem_nil _)
  refine ⟨hops, ?_⟩
  exact (rigidity_invariant_ops sampleSpatialState _
    (show Matrix3.isRigid Matrix3.one from Matrix3.isRigid_one) hops).1
